import Mathlib

/-!
Verification of the asset sub-protocol of `electrum-dogegpu`
(`src/electrum/asset.py`): the asset-name validator, the script
encoder/decoder, the verifier boolean-expression engine, and the metadata
status digest.  Python strings are modelled as `List Char`, byte strings as
`List Nat` (each element a byte value), and Python `re` patterns are
hand-compiled to decidable character-level matchers, including CPython
`re.match` semantics: anchoring at the start only, `$` matching at the end of
the string or just before one final newline, and `.` matching anything but a
newline.  Helpers that live in repository files outside `src/`
(`bitcoin.py`, `transaction.py`, `util.py`) are modelled from the spec and
carry a doc comment saying so.
-/

namespace ElectrumAsset

/-- Characters of a string literal, the model of a Python `str`. -/
def cs (s : String) : List Char := s.data

/-- Python `str.split(sep)` for a one-character separator: splits on every
occurrence, keeping empty segments, and returns `[""]` on the empty string. -/
def pySplit (c : Char) : List Char → List (List Char)
  | [] => [[]]
  | x :: xs =>
    if x = c then [] :: pySplit c xs
    else
      match pySplit c xs with
      | [] => [[x]]
      | h :: t => (x :: h) :: t

/-- CPython `$`-anchor semantics: a fully-anchored pattern may leave one final
newline unmatched, so matching strips at most one trailing newline. -/
def stripNL (s : List Char) : List Char :=
  if s.getLast? = some '\n' then s.dropLast else s

def isUpperAZ (c : Char) : Bool := 'A'.toNat ≤ c.toNat && c.toNat ≤ 'Z'.toNat

def isLowerAZ (c : Char) : Bool := 'a'.toNat ≤ c.toNat && c.toNat ≤ 'z'.toNat

def isDigit09 (c : Char) : Bool := '0'.toNat ≤ c.toNat && c.toNat ≤ '9'.toNat

/-- The class `[A-Z0-9._]` used by root/sub/qualifier/restricted names. -/
def rootChar (c : Char) : Bool := isUpperAZ c || isDigit09 c || c = '.' || c = '_'

/-- The class `[-A-Za-z0-9@$%&*()[\]{}_.?:]` of `_UNIQUE_TAG_CHARACTERS`. -/
def uniqueTagChar (c : Char) : Bool :=
  c = '-' || isUpperAZ c || isLowerAZ c || isDigit09 c ||
  c = '@' || c = '$' || c = '%' || c = '&' || c = '*' || c = '(' || c = ')' ||
  c = '[' || c = ']' || c = '{' || c = '}' || c = '_' || c = '.' || c = '?' || c = ':'

/-- The class `[A-Za-z0-9_]` of `_MSG_CHANNEL_TAG_CHARACTERS`. -/
def msgChannelChar (c : Char) : Bool :=
  isUpperAZ c || isLowerAZ c || isDigit09 c || c = '_'

/-- `re.match(_ROOT_NAME_CHARACTERS, s)`: `^[A-Z0-9._]{3,}$`. -/
def matchRootNameChars (s : List Char) : Bool :=
  let core := stripNL s
  3 ≤ core.length && core.all rootChar

/-- `re.match(_SUB_NAME_CHARACTERS, s)`: `^[A-Z0-9._]+$`. -/
def matchSubNameChars (s : List Char) : Bool :=
  let core := stripNL s
  core ≠ [] && core.all rootChar

/-- `re.match(_UNIQUE_TAG_CHARACTERS, s)`: `^[-A-Za-z0-9@$%&*()[\]{}_.?:]+$`. -/
def matchUniqueTagChars (s : List Char) : Bool :=
  let core := stripNL s
  core ≠ [] && core.all uniqueTagChar

/-- `re.match(_MSG_CHANNEL_TAG_CHARACTERS, s)`: `^[A-Za-z0-9_]+$`. -/
def matchMsgChannelTagChars (s : List Char) : Bool :=
  let core := stripNL s
  core ≠ [] && core.all msgChannelChar

/-- `re.match(_QUALIFIER_NAME_CHARACTERS, s)`: `#[A-Z0-9._]{3,}$`, anchored at
the start by `re.match` itself. -/
def matchQualifierNameChars (s : List Char) : Bool :=
  match s with
  | c :: rest =>
    if c = '#' then
      let core := stripNL rest
      3 ≤ core.length && core.all rootChar
    else false
  | [] => false

/-- `re.match(_SUB_QUALIFIER_NAME_CHARACTERS, s)`: `#[A-Z0-9._]+$`. -/
def matchSubQualifierNameChars (s : List Char) : Bool :=
  match s with
  | c :: rest =>
    if c = '#' then
      let core := stripNL rest
      core ≠ [] && core.all rootChar
    else false
  | [] => false

/-- `re.match(_RESTRICTED_NAME_CHARACTERS, s)`: `\$[A-Z0-9._]{3,}$`. -/
def matchRestrictedNameChars (s : List Char) : Bool :=
  match s with
  | c :: rest =>
    if c = '$' then
      let core := stripNL rest
      3 ≤ core.length && core.all rootChar
    else false
  | [] => false

def punctChar (c : Char) : Bool := c = '.' || c = '_'

def hasDoublePunct : List Char → Bool
  | a :: b :: rest => (punctChar a && punctChar b) || hasDoublePunct (b :: rest)
  | _ => false

/-- `re.match(_DOUBLE_PUNCTUATION, s)`: `^.*[._]{2,}.*$`; `.` cannot cross a
newline, so the whole match must avoid newlines up to the `$` anchor. -/
def matchDoublePunctuation (s : List Char) : Bool :=
  let core := stripNL s
  core.all (fun c => c ≠ '\n') && hasDoublePunct core

/-- `re.match(_LEADING_PUNCTUATION, s)`: `^[._].*$`. -/
def matchLeadingPunctuation (s : List Char) : Bool :=
  match stripNL s with
  | c :: rest => punctChar c && rest.all (fun x => x ≠ '\n')
  | [] => false

/-- `re.match(_TRAILING_PUNCTUATION, s)`: `^.*[._]$`. -/
def matchTrailingPunctuation (s : List Char) : Bool :=
  let core := stripNL s
  match core.getLast? with
  | some c => punctChar c && core.dropLast.all (fun x => x ≠ '\n')
  | none => false

/-- `re.match(_QUALIFIER_LEADING_PUNCTUATION, s)`: `^[#\$][._].*$`. -/
def matchQualifierLeadingPunctuation (s : List Char) : Bool :=
  match stripNL s with
  | a :: b :: rest => (a = '#' || a = '$') && punctChar b && rest.all (fun x => x ≠ '\n')
  | _ => false

/-- The `_BAD_NAMES` alternation: each alternative is a fully anchored
literal, so the whole pattern matches exactly the listed strings. -/
def badNamesList : List (List Char) :=
  [cs "RVN", cs "RAVEN", cs "RAVENCOIN", cs "RVNS", cs "RAVENS", cs "RAVENCOINS",
   cs "#RVN", cs "#RAVEN", cs "#RAVENCOIN", cs "#RVNS", cs "#RAVENS", cs "#RAVENCOINS"]

/-- `re.match(_BAD_NAMES, s)`. -/
def matchBadNames (s : List Char) : Bool :=
  badNamesList.contains (stripNL s)

/-- `[^^~#!]`, the left class of the unique / message-channel / owner
indicators (a negated class, so it does match a newline). -/
def indicatorLeftChar (c : Char) : Bool :=
  !(c = '^' || c = '~' || c = '#' || c = '!')

/-- `[^~#!\/]`, the right class of the unique indicator. -/
def uniqueIndicatorRightChar (c : Char) : Bool :=
  !(c = '~' || c = '#' || c = '!' || c = '/')

/-- `re.match(_UNIQUE_INDICATOR, s)`: `(^[^^~#!]+#[^~#!\/]+$)`.  Both classes
exclude `#`, so a match is exactly one `#` with nonempty class-conforming
sides. -/
def matchUniqueIndicator (s : List Char) : Bool :=
  match pySplit '#' (stripNL s) with
  | [l, r] => l ≠ [] && l.all indicatorLeftChar && r ≠ [] && r.all uniqueIndicatorRightChar
  | _ => false

/-- `re.match(_MSG_CHANNEL_INDICATOR, s)`: `(^[^^~#!]+~[^~#!\/]+$)`. -/
def matchMsgChannelIndicator (s : List Char) : Bool :=
  match pySplit '~' (stripNL s) with
  | [l, r] => l ≠ [] && l.all indicatorLeftChar && r ≠ [] && r.all uniqueIndicatorRightChar
  | _ => false

/-- `re.match(_OWNER_INDICATOR, s)`: `(^[^^~#!]+!$)`. -/
def matchOwnerIndicator (s : List Char) : Bool :=
  let core := stripNL s
  core.getLast? = some '!' && core.dropLast ≠ [] && core.dropLast.all indicatorLeftChar

/-- `re.match(_QUALIFIER_INDICATOR, s)`: `^[#][A-Z0-9._]{3,}$`. -/
def matchQualifierIndicator (s : List Char) : Bool :=
  match s with
  | c :: rest =>
    if c = '#' then
      let core := stripNL rest
      3 ≤ core.length && core.all rootChar
    else false
  | [] => false

/-- `re.match(_SUB_QUALIFIER_INDICATOR, s)`: `^#[A-Z0-9._]+\/#[A-Z0-9._]+$`.
The class excludes `/`, so a match is exactly one `/` between two
`#`-prefixed class runs. -/
def matchSubQualifierIndicator (s : List Char) : Bool :=
  match pySplit '/' (stripNL s) with
  | [p, q] =>
    match p, q with
    | cp :: a, cq :: b =>
      cp = '#' && cq = '#' && a ≠ [] && a.all rootChar && b ≠ [] && b.all rootChar
    | _, _ => false
  | _ => false

/-- `re.match(_RESTRICTED_INDICATOR, s)`: `^[\$][A-Z0-9._]{3,}$`. -/
def matchRestrictedIndicator (s : List Char) : Bool :=
  match s with
  | c :: rest =>
    if c = '$' then
      let core := stripNL rest
      3 ≤ core.length && core.all rootChar
    else false
  | [] => false

/-- `_isMatchAny(symbol, badMatches)`. -/
def isMatchAny (symbol : List Char) (badMatches : List (List Char → Bool)) : Bool :=
  badMatches.any (fun m => m symbol)

def isRootNameValid (symbol : List Char) : Bool :=
  matchRootNameChars symbol &&
    !(isMatchAny symbol
      [matchDoublePunctuation, matchLeadingPunctuation, matchTrailingPunctuation, matchBadNames])

def isQualifierNameValid (symbol : List Char) : Bool :=
  matchQualifierNameChars symbol &&
    !(isMatchAny symbol
      [matchDoublePunctuation, matchQualifierLeadingPunctuation, matchTrailingPunctuation, matchBadNames])

def isRestrictedNameValid (symbol : List Char) : Bool :=
  matchRestrictedNameChars symbol &&
    !(isMatchAny symbol
      [matchDoublePunctuation, matchLeadingPunctuation, matchTrailingPunctuation, matchBadNames])

def isSubQualifierNameValid (symbol : List Char) : Bool :=
  matchSubQualifierNameChars symbol &&
    !(isMatchAny symbol
      [matchDoublePunctuation, matchLeadingPunctuation, matchTrailingPunctuation])

def isSubNameValid (symbol : List Char) : Bool :=
  matchSubNameChars symbol &&
    !(isMatchAny symbol
      [matchDoublePunctuation, matchLeadingPunctuation, matchTrailingPunctuation])

def isUniqueTagValid (symbol : List Char) : Bool :=
  matchUniqueTagChars symbol

def isMsgChannelTagValid (symbol : List Char) : Bool :=
  matchMsgChannelTagChars symbol &&
    !(isMatchAny symbol
      [matchDoublePunctuation, matchLeadingPunctuation, matchTrailingPunctuation])

/-- `_isNameValidBeforeTag`: the first `/`-segment must be a valid root name,
later segments valid sub names. -/
def isNameValidBeforeTag (symbol : List Char) : Bool :=
  match pySplit '/' symbol with
  | [] => true
  | root :: subs => isRootNameValid root && subs.all isSubNameValid

/-- `_isQualifierNameValidBeforeTag`. -/
def isQualifierNameValidBeforeTag (symbol : List Char) : Bool :=
  match pySplit '/' symbol with
  | [] => true
  | p0 :: rest =>
    isQualifierNameValid p0 && rest.length ≤ 1 && rest.all isSubQualifierNameValid

/-- `_isAssetNameASubAsset`. -/
def isAssetNameASubAsset (asset : List Char) : Bool :=
  match pySplit '/' asset with
  | p0 :: rest => isRootNameValid p0 && rest ≠ []
  | [] => false

inductive AssetType where
  | ROOT | SUB | MSG_CHANNEL | OWNER | UNIQUE | QUALIFIER | SUB_QUALIFIER | RESTRICTED
  deriving DecidableEq, Repr

def MAX_NAME_LENGTH : Nat := 32
def MAX_CHANNEL_NAME_LENGTH : Nat := 12
def MIN_ASSET_LENGTH : Nat := 3
def MAX_VERIFIER_STING_LENGTH : Nat := 75

/-- `get_error_for_asset_typed`.  Error message texts are abbreviated; the
claims only distinguish `some` from `none`. -/
def getErrorForAssetTyped (asset : List Char) (assetType : AssetType) : Option (List Char) :=
  if assetType = .SUB && !(asset.contains '/') then some (cs "Not a sub asset.")
  else if assetType = .ROOT && asset.contains '/' then some (cs "Not a root asset.")
  else if assetType = .ROOT || assetType = .SUB then
    if MAX_NAME_LENGTH - 1 < asset.length then
      some (cs "Name is greater than max length of 31.")
    else if !(isAssetNameASubAsset asset) && asset.length < MIN_ASSET_LENGTH then
      some (cs "Name must contain at least 3 characters.")
    else if !(isNameValidBeforeTag asset) && isAssetNameASubAsset asset &&
        asset.length < MIN_ASSET_LENGTH then
      some (cs "Name must have at least 3 characters.")
    else if !(isNameValidBeforeTag asset) then
      some (cs "Name contains invalid characters.")
    else none
  else
    if MAX_NAME_LENGTH < asset.length then
      some (cs "Name is greater than max length of 32.")
    else if assetType = .UNIQUE then
      if (pySplit '#' asset).length = 1 then some (cs "Not a unique tag.")
      else if !(isNameValidBeforeTag ((pySplit '#' asset).headD [])) ||
          !(isUniqueTagValid ((pySplit '#' asset).getLastD [])) then
        some (cs "Unique name contains invalid characters.")
      else none
    else if assetType = .MSG_CHANNEL then
      if (pySplit '~' asset).length = 1 then some (cs "Not a message channel.")
      else if MAX_CHANNEL_NAME_LENGTH < ((pySplit '~' asset).getLastD []).length then
        some (cs "Channel name is greater than max length of 12.")
      else if !(isNameValidBeforeTag ((pySplit '~' asset).headD [])) ||
          !(isMsgChannelTagValid ((pySplit '~' asset).getLastD [])) then
        some (cs "Message Channel name contains invalid characters.")
      else none
    else if assetType = .OWNER then
      if !(isNameValidBeforeTag asset.dropLast) then
        some (cs "Owner name contains invalid characters.")
      else none
    else if assetType = .QUALIFIER || assetType = .SUB_QUALIFIER then
      if assetType = .QUALIFIER && asset.contains '/' then some (cs "Not a qualifier")
      else if assetType = .SUB_QUALIFIER && !(asset.contains '/') then some (cs "Not a sub qualifier")
      else if asset.length < 4 then some (cs "Name must contain at least 3 characters.")
      else if !(isQualifierNameValidBeforeTag asset) then
        some (cs "Qualifier name contains invalid characters.")
      else none
    else if assetType = .RESTRICTED then
      if !(isRestrictedNameValid asset) then
        some (cs "Restricted name contains invalid characters.")
      else none
    else some (cs "Unknown asset type.")

/-- `get_error_for_asset_name`: classify by the indicator patterns in priority
order, then validate under the selected taxonomy. -/
def getErrorForAssetName (asset : List Char) : Option (List Char) :=
  if 40 < asset.length then some (cs "Asset is too long")
  else if matchUniqueIndicator asset then getErrorForAssetTyped asset .UNIQUE
  else if matchMsgChannelIndicator asset then getErrorForAssetTyped asset .MSG_CHANNEL
  else if matchOwnerIndicator asset then getErrorForAssetTyped asset .OWNER
  else if matchQualifierIndicator asset then getErrorForAssetTyped asset .QUALIFIER
  else if matchSubQualifierIndicator asset then getErrorForAssetTyped asset .SUB_QUALIFIER
  else if matchRestrictedIndicator asset then getErrorForAssetTyped asset .RESTRICTED
  else getErrorForAssetTyped asset (if isAssetNameASubAsset asset then .SUB else .ROOT)

/-! ## Verifier boolean expression engine (`BooleanExprAST`) -/

/-- The AST of `BooleanExprAST`.  Children are constructor arguments; a
`NONE` node carries a parse-error message.  `CHSTR c` models the CPython
corner in which a reduction pass stores a bare one-character operator string
in a child slot (e.g. `parse_string("A&|")` yields an AND node whose right
child is the string `"|"`); `evaluate` fails on it with the corresponding
`AssertionError`, as the Python asserts do. -/
inductive BooleanExprAST where
  | AND (l r : BooleanExprAST)
  | OR (l r : BooleanExprAST)
  | NOT (l : BooleanExprAST)
  | VAR (name : List Char)
  | NONE (error : List Char)
  | CHSTR (c : Char)
  deriving DecidableEq, Repr

/-- Whether a child slot holds a `BooleanExprAST` instance (everything except
a bare operator character); the Python `assert isinstance(..., BooleanExprAST)`. -/
def BooleanExprAST.isNodeInst : BooleanExprAST → Bool
  | .CHSTR _ => false
  | _ => true

/-- Python `bool_dict.get(key, None)`: association-list lookup. -/
def lookupVar (bindings : List (List Char × Bool)) (k : List Char) : Option Bool :=
  match bindings with
  | [] => none
  | (k2, v) :: rest => if k2 = k then some v else lookupVar rest k

/-- `BooleanExprAST.evaluate`.  Python `and`/`or` short-circuit, `not`
negates, and a `VAR` whose key is absent raises `Key ... does not exist`.
Only `NONE` nodes carry `_error`, so the leading `if self._error: raise`
fires exactly on them. -/
def BooleanExprAST.evaluate : BooleanExprAST → List (List Char × Bool) → Except (List Char) Bool
  | .NONE e, _ => .error e
  | .AND l r, bindings =>
    if !(l.isNodeInst && r.isNodeInst) then .error (cs "AssertionError")
    else do
      let a ← l.evaluate bindings
      if a then r.evaluate bindings else pure false
  | .OR l r, bindings =>
    if !(l.isNodeInst && r.isNodeInst) then .error (cs "AssertionError")
    else do
      let a ← l.evaluate bindings
      if a then pure true else r.evaluate bindings
  | .NOT l, bindings =>
    if !l.isNodeInst then .error (cs "AssertionError")
    else do
      let a ← l.evaluate bindings
      pure (!a)
  | .VAR name, bindings =>
    match lookupVar bindings name with
    | some v => pure v
    | none => .error (cs "Key " ++ name ++ cs " does not exist")
  | .CHSTR _, _ => .error (cs "AssertionError")

/-- Spec-side helper (not in the source): whether an expression references a
given variable, used to state the claims about absent bindings. -/
def BooleanExprAST.mentionsVar : BooleanExprAST → List Char → Bool
  | .VAR n, x => n = x
  | .AND l r, x => l.mentionsVar x || r.mentionsVar x
  | .OR l r, x => l.mentionsVar x || r.mentionsVar x
  | .NOT l, x => l.mentionsVar x
  | _, _ => false

/-- A token of the first scanning phase of `parse_string`: a variable run, a
top-level parenthesized group (its inner text), or a raw operator char. -/
inductive RawTok where
  | var (s : List Char)
  | grp (s : List Char)
  | opch (c : Char)
  deriving DecidableEq, Repr

/-- Python `verifier[j:i]`. -/
def slice (s : List Char) (j i : Nat) : List Char := (s.drop j).take (i - j)

/-- `^[A-Z0-9._]$` on a single character, the variable-character test of the
scanner. -/
def isVarChar (c : Char) : Bool := rootChar c

/-- The loop state of the scanning phase of `parse_string`:
`last_parenthesis_index`, `last_name_index`, `l_tok`, `r_tok`, and the
accumulated `top_level_parenthesized` tokens. -/
structure ScanSt where
  lpi : Option Nat := none
  lname : Option Nat := none
  ltok : Nat := 0
  rtok : Nat := 0
  toks : List RawTok := []

/-- One iteration of the scanning loop of `parse_string` at `(i, ch)`. -/
def scanStep (verifier : List Char) (i : Nat) (ch : Char) (st : ScanSt) :
    Except (List Char) ScanSt :=
  if st.lpi.isNone && isVarChar ch then
    .ok { st with lname := some (st.lname.getD i) }
  else
    let st :=
      if st.lpi.isNone then
        match st.lname with
        | some j => { st with toks := st.toks ++ [.var (slice verifier j i)], lname := none }
        | none => st
      else st
    let st :=
      if ch = '(' then
        { st with lpi := if st.ltok = 0 then some i else st.lpi, ltok := st.ltok + 1 }
      else if ch = ')' then { st with rtok := st.rtok + 1 }
      else st
    if st.ltok = st.rtok && st.lpi.isSome then
      let newToks := st.toks ++ [.grp (slice verifier (st.lpi.getD 0 + 1) i)]
      .ok { st with toks := newToks, ltok := 0, rtok := 0, lpi := none }
    else if st.lpi.isSome then .ok st
    else if ch = '&' || ch = '|' || ch = '!' then
      .ok { st with toks := st.toks ++ [.opch ch] }
    else .error (cs "Unable to parse token " ++ [ch])

/-- The scanning phase of `parse_string`: the indexed loop over the verifier
followed by the trailing-variable flush. -/
def tokenize (verifier : List Char) : Except (List Char) (List RawTok) := do
  let st ← verifier.enum.foldlM (fun st (p : Nat × Char) => scanStep verifier p.1 p.2 st)
    ({} : ScanSt)
  match verifier.getLast? with
  | some ch =>
    if isVarChar ch && st.lname.isSome then
      pure (st.toks ++ [.var (slice verifier (st.lname.getD 0) verifier.length)])
    else pure st.toks
  | none => pure st.toks

/-- An item of the reduction passes: an AST node or a raw operator char. -/
inductive PItem where
  | node (a : BooleanExprAST)
  | tok (c : Char)
  deriving DecidableEq, Repr

/-- Placing an item into a child slot: a raw operator char becomes the bare
string child modelled by `CHSTR`. -/
def PItem.toAst : PItem → BooleanExprAST
  | .node a => a
  | .tok c => .CHSTR c

/-- The `!`-reduction pass: fold each `!` into a NOT node over the following
item; a trailing unresolved `!` is `Bad NOT placement`. -/
def notPass (items : List PItem) : Except (List Char) (List PItem) :=
  go false true [] items
where
  go (isNot allResolved : Bool) (acc : List PItem) : List PItem → Except (List Char) (List PItem)
    | [] => if !allResolved then .error (cs "Bad NOT placement") else .ok acc
    | item :: rest =>
      if item = .tok '!' then go (!isNot) false acc rest
      else if isNot then go false true (acc ++ [.node (.NOT item.toAst)]) rest
      else go isNot true (acc ++ [item]) rest

/-- The `&`-reduction pass. -/
def andPass (items : List PItem) : Except (List Char) (List PItem) :=
  go false [] items
where
  go (looking : Bool) (acc : List PItem) : List PItem → Except (List Char) (List PItem)
    | [] => if looking then .error (cs "No right side of AND statement") else .ok acc
    | item :: rest =>
      if item = .tok '&' then go true acc rest
      else if looking then
        match acc.getLast? with
        | none => .error (cs "No left side of AND statement")
        | some itemL =>
          go false (acc.dropLast ++ [.node (.AND itemL.toAst item.toAst)]) rest
      else go false (acc ++ [item]) rest

/-- The `|`-reduction pass. -/
def orPass (items : List PItem) : Except (List Char) (List PItem) :=
  go false [] items
where
  go (looking : Bool) (acc : List PItem) : List PItem → Except (List Char) (List PItem)
    | [] => if looking then .error (cs "No right side of OR statement") else .ok acc
    | item :: rest =>
      if item = .tok '|' then go true acc rest
      else if looking then
        match acc.getLast? with
        | none => .error (cs "No left side of OR statement")
        | some itemL =>
          go false (acc.dropLast ++ [.node (.OR itemL.toAst item.toAst)]) rest
      else go false (acc ++ [item]) rest

/-- `BooleanExprAST.parse_string`, with explicit recursion fuel (each
recursive call is on the strictly shorter text of a parenthesized group;
`parse_string` itself supplies enough fuel).  The result is `none` exactly
when the Python raises `IndexError` (empty final item list, from an
unmatched `(`); syntax errors come back as `NONE` nodes. -/
def BooleanExprAST.parseAux : Nat → List Char → Option BooleanExprAST
  | 0, _ => none
  | fuel + 1, verifier =>
    if verifier.length = 0 then some (.NONE (cs "Empty string"))
    else if 80 < verifier.length then some (.NONE (cs "Verifier is too long"))
    else
      match tokenize verifier with
      | .error e => some (.NONE e)
      | .ok raws =>
        match raws.mapM (fun t =>
          match t with
          | .var s => some (PItem.node (.VAR s))
          | .grp g => (BooleanExprAST.parseAux fuel g).map .node
          | .opch c => some (.tok c)) with
        | none => none
        | some items =>
          match notPass items with
          | .error e => some (.NONE e)
          | .ok items =>
            match andPass items with
            | .error e => some (.NONE e)
            | .ok items =>
              match orPass items with
              | .error e => some (.NONE e)
              | .ok items =>
                match items with
                | [] => none
                | [x] => some x.toAst
                | _ => some (.NONE (cs "Variables exist with no operators between them"))

/-- `BooleanExprAST.parse_string`. -/
def BooleanExprAST.parse_string (verifier : List Char) : Option BooleanExprAST :=
  BooleanExprAST.parseAux (verifier.length + 1) verifier

/-- `compress_verifier_string`: strip spaces and the qualifier delimiter. -/
def compressVerifierString (verifier : List Char) : List Char :=
  (verifier.filter (fun c => c ≠ ' ')).filter (fun c => c ≠ '#')

/-- `parse_verifier_string`. -/
def parseVerifierString (verifier : List Char) : Option BooleanExprAST :=
  BooleanExprAST.parse_string (compressVerifierString verifier)

/-! ## Decoded vout information (`BaseAssetVoutInformation` hierarchy) -/

inductive AssetVoutType where
  | NONE | TRANSFER | CREATE | OWNER | REISSUE | NULL | VERIFIER | FREEZE
  deriving DecidableEq, Repr

/-- The closed hierarchy of decoded vout results; each constructor is one of
the Python subclasses, with the fields its `__init__` stores.  Tag variants
and `NoAssetVoutInformation` are always constructed with
`well_formed = True`, so they carry no flag. -/
inductive AssetVoutInformation where
  | noInfo
  | metadata (type_ : AssetVoutType) (wellFormed : Bool) (asset : List Char) (amount : Nat)
      (divisions : Nat) (reissuable : Bool) (associatedData : Option (List Nat))
  | owner (wellFormed : Bool) (asset : List Char)
  | transfer (wellFormed : Bool) (asset : List Char) (amount : Nat)
      (assetMemo : Option (List Nat)) (assetMemoTimestamp : Option Nat)
  | nullTag (asset : List Char) (h160 : List Char) (flag : Bool)
  | verifierTag (verifierString : List Char)
  | freezeTag (asset : List Char) (flag : Bool)
  deriving DecidableEq, Repr

def AssetVoutInformation.get_type : AssetVoutInformation → AssetVoutType
  | .noInfo => .NONE
  | .metadata t _ _ _ _ _ _ => t
  | .owner _ _ => .OWNER
  | .transfer _ _ _ _ _ => .TRANSFER
  | .nullTag _ _ _ => .NULL
  | .verifierTag _ => .VERIFIER
  | .freezeTag _ _ => .FREEZE

def AssetVoutInformation.well_formed_script : AssetVoutInformation → Bool
  | .noInfo => true
  | .metadata _ wf _ _ _ _ _ => wf
  | .owner wf _ => wf
  | .transfer wf _ _ _ _ => wf
  | .nullTag _ _ _ => true
  | .verifierTag _ => true
  | .freezeTag _ _ => true

/-- `BaseAssetVoutInformation.is_transferable` (no subclass overrides it). -/
def AssetVoutInformation.is_transferable (v : AssetVoutInformation) : Bool :=
  v.get_type = .CREATE || v.get_type = .OWNER || v.get_type = .TRANSFER || v.get_type = .REISSUE

/-- The base-class `is_deterministic` body. -/
def AssetVoutInformation.baseIsDeterministic (v : AssetVoutInformation) : Bool :=
  (v.get_type = .TRANSFER || v.get_type = .OWNER || v.get_type = .NONE) && v.well_formed_script

/-- `is_deterministic` with the `TransferAssetVoutInformation` and
`TagAssetVoutInformation` overrides. -/
def AssetVoutInformation.is_deterministic (v : AssetVoutInformation) : Bool :=
  match v with
  | .transfer _ _ _ memo ts => memo.isNone && ts.isNone && v.baseIsDeterministic
  | .nullTag _ _ _ => true
  | .verifierTag _ => true
  | .freezeTag _ _ => true
  | _ => v.baseIsDeterministic

/-- `is_tag` (overridden to `True` by `TagAssetVoutInformation`). -/
def AssetVoutInformation.is_tag : AssetVoutInformation → Bool
  | .nullTag _ _ _ => true
  | .verifierTag _ => true
  | .freezeTag _ _ => true
  | _ => false

/-! ## SHA-256 and base-58 (the hashing and text-codec collaborators) -/

namespace SHA256

/-- Modelled from the spec: `hashlib.sha256` (Python standard library, not
repository code) — the FIPS 180-4 SHA-256 function, over byte lists with
32-bit words as `Nat` reduced modulo `2^32`. -/
def M32 : Nat := 4294967296

def add32 (a b : Nat) : Nat := (a + b) % M32

def rotr32 (x n : Nat) : Nat := ((x >>> n) ||| (x <<< (32 - n))) % M32

def ch (x y z : Nat) : Nat := (x &&& y) ^^^ ((x ^^^ 4294967295) &&& z)

def maj (x y z : Nat) : Nat := (x &&& y) ^^^ (x &&& z) ^^^ (y &&& z)

def bsig0 (x : Nat) : Nat := rotr32 x 2 ^^^ rotr32 x 13 ^^^ rotr32 x 22

def bsig1 (x : Nat) : Nat := rotr32 x 6 ^^^ rotr32 x 11 ^^^ rotr32 x 25

def ssig0 (x : Nat) : Nat := rotr32 x 7 ^^^ rotr32 x 18 ^^^ (x >>> 3)

def ssig1 (x : Nat) : Nat := rotr32 x 17 ^^^ rotr32 x 19 ^^^ (x >>> 10)

def K : List Nat :=
  [1116352408, 1899447441, 3049323471, 3921009573, 961987163, 1508970993,
   2453635748, 2870763221, 3624381080, 310598401, 607225278, 1426881987,
   1925078388, 2162078206, 2614888103, 3248222580, 3835390401, 4022224774,
   264347078, 604807628, 770255983, 1249150122, 1555081692, 1996064986,
   2554220882, 2821834349, 2952996808, 3210313671, 3336571891, 3584528711,
   113926993, 338241895, 666307205, 773529912, 1294757372, 1396182291,
   1695183700, 1986661051, 2177026350, 2456956037, 2730485921, 2820302411,
   3259730800, 3345764771, 3516065817, 3600352804, 4094571909, 275423344,
   430227734, 506948616, 659060556, 883997877, 958139571, 1322822218,
   1537002063, 1747873779, 1955562222, 2024104815, 2227730452, 2361852424,
   2428436474, 2756734187, 3204031479, 3329325298]

def be64 (n : Nat) : List Nat :=
  [(n >>> 56) % 256, (n >>> 48) % 256, (n >>> 40) % 256, (n >>> 32) % 256,
   (n >>> 24) % 256, (n >>> 16) % 256, (n >>> 8) % 256, n % 256]

def be32 (n : Nat) : List Nat :=
  [(n >>> 24) % 256, (n >>> 16) % 256, (n >>> 8) % 256, n % 256]

def pad (msg : List Nat) : List Nat :=
  let l := msg.length
  msg ++ [0x80] ++ List.replicate ((55 - l % 64 + 64) % 64) 0 ++ be64 (8 * l)

def toWords : List Nat → List Nat
  | b0 :: b1 :: b2 :: b3 :: rest => ((b0 <<< 24) ||| (b1 <<< 16) ||| (b2 <<< 8) ||| b3) :: toWords rest
  | _ => []

def chunks16 : List Nat → List (List Nat)
  | w0 :: w1 :: w2 :: w3 :: w4 :: w5 :: w6 :: w7 ::
    w8 :: w9 :: w10 :: w11 :: w12 :: w13 :: w14 :: w15 :: rest =>
    [w0, w1, w2, w3, w4, w5, w6, w7, w8, w9, w10, w11, w12, w13, w14, w15] :: chunks16 rest
  | [] => []
  | short => [short]

def extendSchedule (w : List Nat) : Nat → List Nat
  | 0 => w
  | k + 1 =>
    let w := extendSchedule w k
    w ++ [add32 (add32 (ssig1 (w.getD (w.length - 2) 0)) (w.getD (w.length - 7) 0))
          (add32 (ssig0 (w.getD (w.length - 15) 0)) (w.getD (w.length - 16) 0))]

def round (st : Nat × Nat × Nat × Nat × Nat × Nat × Nat × Nat) (wk : Nat × Nat) :
    Nat × Nat × Nat × Nat × Nat × Nat × Nat × Nat :=
  let (a, b, c, d, e, f, g, h) := st
  let t1 := (h + bsig1 e + ch e f g + wk.2 + wk.1) % M32
  let t2 := (bsig0 a + maj a b c) % M32
  ((t1 + t2) % M32, a, b, c, (d + t1) % M32, e, f, g)

def processBlock (H : List Nat) (block : List Nat) : List Nat :=
  let ws := extendSchedule block 48
  let st := (H.getD 0 0, H.getD 1 0, H.getD 2 0, H.getD 3 0,
             H.getD 4 0, H.getD 5 0, H.getD 6 0, H.getD 7 0)
  let (a, b, c, d, e, f, g, h) := (ws.zip K).foldl round st
  [add32 (H.getD 0 0) a, add32 (H.getD 1 0) b, add32 (H.getD 2 0) c, add32 (H.getD 3 0) d,
   add32 (H.getD 4 0) e, add32 (H.getD 5 0) f, add32 (H.getD 6 0) g, add32 (H.getD 7 0) h]

def H0 : List Nat :=
  [1779033703, 3144134277, 1013904242, 2773480762,
   1359893119, 2600822924, 528734635, 1541459225]

/-- The SHA-256 digest (32 bytes) of a byte list. -/
def sha256 (msg : List Nat) : List Nat :=
  ((chunks16 (toWords (pad msg))).foldl processBlock H0).flatMap be32

end SHA256

def hexDigit (n : Nat) : Char := (cs "0123456789abcdef").getD n '0'

/-- Python `bytes.hex()`. -/
def bytesToHex (bs : List Nat) : List Char :=
  bs.flatMap (fun b => [hexDigit (b / 16 % 16), hexDigit (b % 16)])

/-- Modelled from the spec: `base_encode(b, base=58)` from the absent
`bitcoin.py` — the 58-symbol text encoding of a byte string: the big-endian
integer written in the base-58 alphabet, with one leading `1` per leading
zero byte. -/
def BASE58_ALPHABET : List Char := cs "123456789ABCDEFGHJKLMNPQRSTUVWXYZabcdefghijkmnopqrstuvwxyz"

/-- Base-58 digits of `n`, most significant first; the fuel argument (any
bound on the digit count, e.g. `n` itself) keeps the recursion structural. -/
def natToBase58Aux : Nat → Nat → List Char
  | _, 0 => []
  | 0, _ + 1 => []
  | fuel + 1, n + 1 =>
    natToBase58Aux fuel ((n + 1) / 58) ++ [BASE58_ALPHABET.getD ((n + 1) % 58) '1']

def natToBase58 (n : Nat) : List Char := natToBase58Aux n n

def base_encode (b : List Nat) : List Char :=
  List.replicate (b.takeWhile (fun x => x = 0)).length '1' ++
    natToBase58 (b.foldl (fun acc x => acc * 256 + x) 0)

/-! ## `AssetMetadata` and its status digest -/

/-- Python `str(n)` for a nonnegative integer. -/
def natToChars (n : Nat) : List Char := (toString n).data

/-- Python `str(b)` for a boolean: `True` / `False`. -/
def pyBoolStr (b : Bool) : List Char := if b then cs "True" else cs "False"

/-- `AssetMetadata` (the `attrs` converter normalizes falsy associated data
to `None`, so `some []` never occurs in records the code builds). -/
structure AssetMetadata where
  sats_in_circulation : Nat
  divisions : Nat
  reissuable : Bool
  associated_data : Option (List Nat) := none
  deriving DecidableEq, Repr

/-- `associated_data_as_ipfs`: `None` when the data is falsy (absent or
empty), otherwise its base-58 text encoding. -/
def AssetMetadata.associated_data_as_ipfs (m : AssetMetadata) : Option (List Char) :=
  match m.associated_data with
  | none => none
  | some [] => none
  | some d => some (base_encode d)

/-- `AssetMetadata.status`: join `str(sats)`, `str(divisions)`,
`str(reissuable)`, `str(associated_data is not None)`; append the base-58
text of the data when it `is not None`; return the hex SHA-256 of the ASCII
bytes.  `none` models the `TypeError` of appending `None` (only reachable
with `associated_data = some []`, which the converter rules out). -/
def AssetMetadata.status (m : AssetMetadata) : Option (List Char) :=
  let h := natToChars m.sats_in_circulation ++ natToChars m.divisions ++
           pyBoolStr m.reissuable ++ pyBoolStr m.associated_data.isSome
  match m.associated_data with
  | none => some (bytesToHex (SHA256.sha256 (h.map Char.toNat)))
  | some _ =>
    match m.associated_data_as_ipfs with
    | none => none
    | some ipfs => some (bytesToHex (SHA256.sha256 ((h ++ ipfs).map Char.toNat)))

/-- The claim's reading of the status digest, written from its words: hex
SHA-256 of the ASCII bytes of the decimal string forms of circulation,
divisions, reissuable and the has-associated-data indicator (a boolean in
decimal form being `1`/`0`), followed by the base-58 text of the data when
present. -/
def statusClaimSpec (m : AssetMetadata) : Option (List Char) :=
  let h := natToChars m.sats_in_circulation ++ natToChars m.divisions ++
           (if m.reissuable then cs "1" else cs "0") ++
           (if m.associated_data.isSome then cs "1" else cs "0")
  match m.associated_data with
  | none => some (bytesToHex (SHA256.sha256 (h.map Char.toNat)))
  | some d => some (bytesToHex (SHA256.sha256 ((h ++ base_encode d).map Char.toNat)))

/-- The amended reading: the boolean components enter the preimage in their
Python `str()` forms `True`/`False` rather than in decimal form. -/
def statusAmendedSpec (m : AssetMetadata) : Option (List Char) :=
  let h := natToChars m.sats_in_circulation ++ natToChars m.divisions ++
           pyBoolStr m.reissuable ++ pyBoolStr m.associated_data.isSome
  match m.associated_data with
  | none => some (bytesToHex (SHA256.sha256 (h.map Char.toNat)))
  | some d => some (bytesToHex (SHA256.sha256 ((h ++ base_encode d).map Char.toNat)))

/-! ## Script-level collaborators (modelled from the spec) -/

/-- Modelled from the spec: the script opcodes used by the asset protocol,
defined in the absent `bitcoin.py`.  `OP_ASSET` is the asset-marker opcode
(0xc0 in the upstream Raven-style wire format); the decoder itself compares
the drop opcode against the literal byte `0x75` and the hash160 length
against `0x14`. -/
abbrev OP_ASSET : Nat := 0xc0

abbrev OP_DROP : Nat := 0x75

abbrev OP_RESERVED : Nat := 0x50

abbrev OP_PUSHDATA1 : Nat := 0x4c

abbrev OP_PUSHDATA2 : Nat := 0x4d

abbrev OP_PUSHDATA4 : Nat := 0x4e

/-- Modelled from the spec: `COIN`, the base-unit scale (`10^8`). -/
def COIN : Nat := 100000000

def DEFAULT_ASSET_AMOUNT_MAX : Nat := 21000000000

def RVN_ASSET_PREFIX : List Nat := [0x72, 0x76, 0x6e]

def RVN_ASSET_TYPE_CREATE : List Nat := [0x71]

def RVN_ASSET_TYPE_OWNER : List Nat := [0x6f]

def RVN_ASSET_TYPE_TRANSFER : List Nat := [0x74]

def RVN_ASSET_TYPE_REISSUE : List Nat := [0x72]

/-- Modelled from the spec: `int_to_hex(i, length)` of the absent
`bitcoin.py` — the little-endian fixed-length byte encoding, at the byte
level (hex text and bytes concatenate identically). -/
def intToBytesLE : Nat → Nat → List Nat
  | _, 0 => []
  | n, len + 1 => n % 256 :: intToBytesLE (n / 256) len

/-- `int_to_hex` on a Python `int`: negatives are two's-complemented into
the requested width. -/
def intToBytesLEI (i : Int) (len : Nat) : List Nat :=
  intToBytesLE (i % ((256 : Int) ^ len)).toNat len

/-- `int.from_bytes(b, 'little')`. -/
def fromBytesLE (bs : List Nat) : Nat := bs.foldr (fun b acc => b + 256 * acc) 0

/-- Modelled from the spec: `_op_push(n)` of the absent `bitcoin.py` — the
minimal push-length prefix. -/
def opPush (n : Nat) : List Nat :=
  if n < 0x4c then [n]
  else if n ≤ 0xff then [OP_PUSHDATA1, n]
  else if n ≤ 0xffff then [OP_PUSHDATA2, n % 256, n / 256]
  else [OP_PUSHDATA4, n % 256, n / 256 % 256, n / 65536 % 256, n / 16777216 % 256]

inductive ScriptItem where
  | op (n : Nat)
  | data (d : List Nat)

/-- Modelled from the spec: `construct_script` of the absent `bitcoin.py` —
assembles an opcode/operand list into script bytes, length-prefixing each
data operand with its minimal push. -/
def constructScript (items : List ScriptItem) : List Nat :=
  items.flatMap fun
    | .op n => [n]
    | .data d => opPush d.length ++ d

/-- Modelled from the spec: `address_to_script` of the absent `bitcoin.py`
— the base spending script of a destination address, modelled as the
canonical pay-to-pubkey-hash script over the address's hash160 (the address
argument standing for its 20-byte hash). -/
def addressToScript (h160 : List Nat) : List Nat :=
  [0x76, 0xa9, 0x14] ++ h160 ++ [0x88, 0xac]

/-- Python `str.encode()` (UTF-8) of one character. -/
def utf8EncodeChar (c : Char) : List Nat :=
  let n := c.toNat
  if n < 0x80 then [n]
  else if n < 0x800 then [0xc0 ||| (n >>> 6), 0x80 ||| (n &&& 0x3f)]
  else if n < 0x10000 then
    [0xe0 ||| (n >>> 12), 0x80 ||| ((n >>> 6) &&& 0x3f), 0x80 ||| (n &&& 0x3f)]
  else
    [0xf0 ||| (n >>> 18), 0x80 ||| ((n >>> 12) &&& 0x3f),
     0x80 ||| ((n >>> 6) &&& 0x3f), 0x80 ||| (n &&& 0x3f)]

/-- Python `str.encode()`. -/
def utf8Encode (s : List Char) : List Nat := s.flatMap utf8EncodeChar

def isUtf8Cont (b : Nat) : Bool := 0x80 ≤ b && b ≤ 0xbf

/-- The range constraint on the first continuation byte of a 3-byte UTF-8
sequence (tight for 0xe0/0xed to exclude overlongs and surrogates). -/
def utf8Cont3Ok (b b1 : Nat) : Bool :=
  (if b = 0xe0 then 0xa0 else 0x80) ≤ b1 && b1 ≤ (if b = 0xed then 0x9f else 0xbf)

/-- The range constraint on the first continuation byte of a 4-byte UTF-8
sequence (tight for 0xf0/0xf4 to exclude overlongs and values past U+10FFFF). -/
def utf8Cont4Ok (b b1 : Nat) : Bool :=
  (if b = 0xf0 then 0x90 else 0x80) ≤ b1 && b1 ≤ (if b = 0xf4 then 0x8f else 0xbf)

/-- Python `bytes.decode()`: strict UTF-8, `none` modelling
`UnicodeDecodeError` (overlong forms and surrogates rejected).  Trailing
bytes are read positionally with default `0`, which is never a valid
continuation byte, so truncated sequences fail exactly as in CPython; the
fuel (one unit per decoded character, so the byte count suffices) keeps the
recursion structural. -/
def utf8DecodeAux : Nat → List Nat → Option (List Char)
  | _, [] => some []
  | 0, _ :: _ => none
  | fuel + 1, b :: rest =>
    if b < 0x80 then (utf8DecodeAux fuel rest).map (Char.ofNat b :: ·)
    else if 0xc2 ≤ b && b ≤ 0xdf then
      if isUtf8Cont (rest.getD 0 0) then
        (utf8DecodeAux fuel (rest.drop 1)).map
          (Char.ofNat (((b - 0xc0) <<< 6) ||| (rest.getD 0 0 - 0x80)) :: ·)
      else none
    else if b ≤ 0xef && 0xe0 ≤ b then
      if utf8Cont3Ok b (rest.getD 0 0) && isUtf8Cont (rest.getD 1 0) then
        (utf8DecodeAux fuel (rest.drop 2)).map
          (Char.ofNat ((((b - 0xe0) <<< 12) ||| ((rest.getD 0 0 - 0x80) <<< 6)) |||
            (rest.getD 1 0 - 0x80)) :: ·)
      else none
    else if b ≤ 0xf4 && 0xf0 ≤ b then
      if utf8Cont4Ok b (rest.getD 0 0) && isUtf8Cont (rest.getD 1 0) &&
          isUtf8Cont (rest.getD 2 0) then
        (utf8DecodeAux fuel (rest.drop 3)).map
          (Char.ofNat (((((b - 0xf0) <<< 18) ||| ((rest.getD 0 0 - 0x80) <<< 12)) |||
            ((rest.getD 1 0 - 0x80) <<< 6)) ||| (rest.getD 2 0 - 0x80)) :: ·)
      else none
    else none

def utf8Decode (bs : List Nat) : Option (List Char) := utf8DecodeAux bs.length bs

/-- A disassembled operation: `(opcode, push-data or none, offset just past
this operation)`. -/
abbrev DecodedOp := Nat × Option (List Nat) × Nat

/-- Modelled from the spec: `script_GetOp` of the absent `transaction.py` —
disassembles a script into ordered `(opcode, push-data, offset)` triples; a
push whose size header or data runs past the end of the script is the
distinguishable malformed-script condition, here `none`.  The fuel (one
unit per operation, so the script length suffices) keeps the recursion
structural. -/
def scriptGetOpAux : Nat → List Nat → Nat → Option (List DecodedOp)
  | _, [], _ => some []
  | 0, _ :: _, _ => none
  | fuel + 1, op :: rest, i =>
    if op ≤ OP_PUSHDATA4 then
      if op < OP_PUSHDATA1 then
        if op ≤ rest.length then
          (scriptGetOpAux fuel (rest.drop op) (i + 1 + op)).map
            ((op, some (rest.take op), i + 1 + op) :: ·)
        else none
      else if op = OP_PUSHDATA1 then
        match rest with
        | s :: rest2 =>
          if s ≤ rest2.length then
            (scriptGetOpAux fuel (rest2.drop s) (i + 2 + s)).map
              ((op, some (rest2.take s), i + 2 + s) :: ·)
          else none
        | [] => none
      else if op = OP_PUSHDATA2 then
        match rest with
        | s0 :: s1 :: rest2 =>
          let n := s0 + 256 * s1
          if n ≤ rest2.length then
            (scriptGetOpAux fuel (rest2.drop n) (i + 3 + n)).map
              ((op, some (rest2.take n), i + 3 + n) :: ·)
          else none
        | _ => none
      else
        match rest with
        | s0 :: s1 :: s2 :: s3 :: rest2 =>
          let n := s0 + 256 * s1 + 65536 * s2 + 16777216 * s3
          if n ≤ rest2.length then
            (scriptGetOpAux fuel (rest2.drop n) (i + 5 + n)).map
              ((op, some (rest2.take n), i + 5 + n) :: ·)
          else none
        | _ => none
    else
      (scriptGetOpAux fuel rest (i + 1)).map ((op, none, i + 1) :: ·)

/-- `script_GetOp(script)`: `none` is the malformed-script condition. -/
def script_GetOp (script : List Nat) : Option (List DecodedOp) :=
  scriptGetOpAux script.length script 0

/-- Modelled from the spec: `ByteReader` of the absent `util.py` —
sequential reads over a byte string, on the remaining byte list; reading
past the end fails (the running-out-of-bytes condition the decoder catches
as `IndexError`). -/
def readByteAsInt : List Nat → Option (Nat × List Nat)
  | [] => none
  | b :: r => some (b, r)

def readBytes (n : Nat) (br : List Nat) : Option (List Nat × List Nat) :=
  if n ≤ br.length then some (br.take n, br.drop n) else none

def canReadAmount (n : Nat) (br : List Nat) : Bool := n ≤ br.length

/-- Python `bytes.find(sub)`: index of the first occurrence, `none`
for `-1`. -/
def firstSubstrPos (pat : List Nat) : List Nat → Option Nat
  | [] => if pat = [] then some 0 else none
  | x :: xs =>
    if pat.isPrefixOf (x :: xs) then some 0
    else (firstSubstrPos pat xs).map (· + 1)

/-! ## Script encoder (`generate_create_script`, transfer scripts) -/

/-- Python truthiness of an `Optional[bytes]`: `None` and empty bytes are
falsy. -/
def pyTruthyBytes : Option (List Nat) → Bool
  | some (_ :: _) => true
  | _ => false

/-- `generate_create_script` (the address argument standing for its
hash160): validates name, amount, divisions and associated data, then
emits base script ++ `OP_ASSET <push(payload)> OP_DROP`. -/
def generate_create_script (h160 : List Nat) (asset : List Char) (amount : Int)
    (divisions : Int) (reissuable : Bool) (associatedData : Option (List Nat)) :
    Except (List Char) (List Nat) :=
  if (getErrorForAssetName asset).isSome then .error (cs "Bad asset")
  else if !(0 < amount) || (DEFAULT_ASSET_AMOUNT_MAX * COIN : Nat) < amount then
    .error (cs "Bad amount")
  else if divisions < 0 || 8 < divisions then .error (cs "Bad divisions")
  else if pyTruthyBytes associatedData && (associatedData.getD []).length ≠ 34 then
    .error (cs "Bad data")
  else
    let assetData :=
      RVN_ASSET_PREFIX ++ RVN_ASSET_TYPE_CREATE ++
      intToBytesLE asset.length 1 ++ utf8Encode asset ++
      intToBytesLEI amount 8 ++ intToBytesLEI divisions 1 ++
      [if reissuable then 1 else 0] ++
      [if pyTruthyBytes associatedData then 1 else 0] ++
      (if pyTruthyBytes associatedData then associatedData.getD [] else [])
    .ok (addressToScript h160 ++ constructScript [.op OP_ASSET, .data assetData, .op OP_DROP])

/-- `_asset_portion_of_transfer_script(asset, amount)` with the default
`memo=None`. -/
def assetPortionOfTransferScript (asset : List Char) (amount : Int) : List Nat :=
  constructScript
    [.op OP_ASSET,
     .data (RVN_ASSET_PREFIX ++ RVN_ASSET_TYPE_TRANSFER ++
       intToBytesLE asset.length 1 ++ utf8Encode asset ++ intToBytesLEI amount 8),
     .op OP_DROP]

/-- `generate_transfer_script_from_base`: no validation of any kind, just
concatenation. -/
def generate_transfer_script_from_base (asset : List Char) (amount : Int)
    (baseScript : List Nat) : List Nat :=
  baseScript ++ assetPortionOfTransferScript asset amount

/-! ## Script decoder (`get_asset_info_from_script`) -/

/-- The Python exceptions that can escape `get_asset_info_from_script`
(everything but `IndexError`, which its `try` converts into the no-info
sentinel). -/
inductive PyErr where
  | unicodeDecodeError
  | typeError
  | stopIteration
  | malformedScript
  | attributeError
  deriving DecidableEq, Repr

/-- The `for i, (op, _, index) in enumerate(decoded)` loop of
`get_asset_info_from_script`.  `break` and a caught `IndexError` both end
in the `NoAssetVoutInformation()` sentinel; `continue` recurses on the
remaining operations; uncaught exceptions are `.error`. -/
def assetLoop (script : List Nat) (decoded : List DecodedOp) :
    List DecodedOp → Nat → Except PyErr (Option AssetVoutInformation)
  | [], _ => .ok (some .noInfo)
  | (op, _, index) :: rest, i =>
    if op ≠ OP_ASSET then assetLoop script decoded rest (i + 1)
    else
      let assetPortion := script.drop index
      if i = 0 then
        match decoded.get? (i + 1) with
        | none => .ok (some .noInfo)
        | some (op1, _, _) =>
          if op1 = OP_RESERVED then
            match decoded.get? (i + 2) with
            | none => .ok (some .noInfo)
            | some (op2, data2, _) =>
              if op2 = OP_RESERVED then
                match decoded.get? (i + 3) with
                | none => .ok (some .noInfo)
                | some (_, data3, _) =>
                  match data3 with
                  | none => .error .typeError
                  | some internalData =>
                    match readByteAsInt internalData with
                    | none => .ok (some .noInfo)
                    | some (assetLength, br1) =>
                      match readBytes assetLength br1 with
                      | none => .ok (some .noInfo)
                      | some (assetB, br2) =>
                        match readByteAsInt br2 with
                        | none => .ok (some .noInfo)
                        | some (flagByte, _) =>
                          match utf8Decode assetB with
                          | none => .error .unicodeDecodeError
                          | some assetStr =>
                            .ok (some (.freezeTag assetStr (flagByte ≠ 0)))
              else
                match data2 with
                | none => .error .typeError
                | some internalData =>
                  match script_GetOp internalData with
                  | none => .error .malformedScript
                  | some [] => .error .stopIteration
                  | some ((_, vch, _) :: _) =>
                    match vch with
                    | none => .error .attributeError
                    | some vs =>
                      match utf8Decode vs with
                      | none => .error .unicodeDecodeError
                      | some verifierStr => .ok (some (.verifierTag verifierStr))
          else
            match readByteAsInt assetPortion with
            | none => .ok (some .noInfo)
            | some (firstByte, br1) =>
              if firstByte ≠ 0x14 then assetLoop script decoded rest (i + 1)
              else
                match readBytes 0x14 br1 with
                | none => .ok (some .noInfo)
                | some (h160, br2) =>
                  match readByteAsInt br2 with
                  | none => .ok (some .noInfo)
                  | some (_, br3) =>
                    match readByteAsInt br3 with
                    | none => .ok (some .noInfo)
                    | some (assetNameLen, br4) =>
                      match readBytes assetNameLen br4 with
                      | none => .ok (some .noInfo)
                      | some (assetBytes, br5) =>
                        match readByteAsInt br5 with
                        | none => .ok (some .noInfo)
                        | some (flag, _) =>
                          match utf8Decode assetBytes with
                          | none => .error .unicodeDecodeError
                          | some assetStr =>
                            .ok (some (.nullTag assetStr (bytesToHex h160) (flag ≠ 0)))
      else
        let decodedHasGoodLength := decide (i + 1 < decoded.length)
        let nextPush : Option (List Nat) :=
          match decoded.get? (i + 1) with
          | some (_, some d, _) => some d
          | _ => none
        let nextOpIsAPush := decodedHasGoodLength && nextPush.isSome
        let remainingMatches := decodedHasGoodLength && nextOpIsAPush &&
          decide (opPush (nextPush.getD []).length ++ nextPush.getD [] ++ [0x75] = assetPortion)
        let wellFormed := decodedHasGoodLength && nextOpIsAPush && remainingMatches
        match firstSubstrPos RVN_ASSET_PREFIX assetPortion with
        | none => .ok (some .noInfo)
        | some pos =>
          if assetPortion.length < RVN_ASSET_PREFIX.length + 3 then .ok (some .noInfo)
          else
            let br0 := assetPortion.drop (pos + RVN_ASSET_PREFIX.length)
            match readBytes 1 br0 with
            | none => .ok (some .noInfo)
            | some (voutType, br1) =>
              if voutType ≠ RVN_ASSET_TYPE_CREATE && voutType ≠ RVN_ASSET_TYPE_OWNER &&
                 voutType ≠ RVN_ASSET_TYPE_TRANSFER && voutType ≠ RVN_ASSET_TYPE_REISSUE then
                .ok (some .noInfo)
              else
                match readByteAsInt br1 with
                | none => .ok (some .noInfo)
                | some (assetLength, br2) =>
                  match readBytes assetLength br2 with
                  | none => .ok (some .noInfo)
                  | some (assetBytes, br3) =>
                    match utf8Decode assetBytes with
                    | none => .error .unicodeDecodeError
                    | some asset =>
                      if voutType = RVN_ASSET_TYPE_OWNER then
                        .ok (some (.owner wellFormed asset))
                      else
                        match readBytes 8 br3 with
                        | none => .ok (some .noInfo)
                        | some (amountBytes, br4) =>
                          let assetAmount := fromBytesLE amountBytes
                          if voutType = RVN_ASSET_TYPE_TRANSFER then
                            if canReadAmount 34 br4 then
                              match readBytes 34 br4 with
                              | none => .ok (some .noInfo)
                              | some (memo, br5) =>
                                if canReadAmount 8 br5 then
                                  match readBytes 8 br5 with
                                  | none => .ok (some .noInfo)
                                  | some (tsBytes, _) =>
                                    .ok (some (.transfer wellFormed asset assetAmount
                                      (some memo) (some (fromBytesLE tsBytes))))
                                else
                                  .ok (some (.transfer wellFormed asset assetAmount (some memo) none))
                            else .ok (some (.transfer wellFormed asset assetAmount none none))
                          else
                            match readByteAsInt br4 with
                            | none => .ok (some .noInfo)
                            | some (divisions, br5) =>
                              match readByteAsInt br5 with
                              | none => .ok (some .noInfo)
                              | some (reissByte, br6) =>
                                let reissuable := reissByte = 1
                                if voutType = RVN_ASSET_TYPE_CREATE then
                                  match readByteAsInt br6 with
                                  | none => .ok (some .noInfo)
                                  | some (hasByte, br7) =>
                                    if hasByte = 1 then
                                      match readBytes 34 br7 with
                                      | none => .ok (some .noInfo)
                                      | some (ad, _) =>
                                        .ok (some (.metadata .CREATE wellFormed asset
                                          assetAmount divisions reissuable (some ad)))
                                    else
                                      .ok (some (.metadata .CREATE wellFormed asset
                                        assetAmount divisions reissuable none))
                                else
                                  if canReadAmount 34 br6 then
                                    match readBytes 34 br6 with
                                    | none => .ok (some .noInfo)
                                    | some (ad, _) =>
                                      .ok (some (.metadata .REISSUE wellFormed asset
                                        assetAmount divisions reissuable (some ad)))
                                  else
                                    .ok (some (.metadata .REISSUE wellFormed asset
                                      assetAmount divisions reissuable none))

/-- `get_asset_info_from_script`.  `.ok none` is the Python `return None`
on a malformed disassembly; `.ok (some v)` a returned vout information;
`.error e` an uncaught exception. -/
def get_asset_info_from_script (script : List Nat) :
    Except PyErr (Option AssetVoutInformation) :=
  match script_GetOp script with
  | none => .ok none
  | some decoded => assetLoop script decoded decoded 0

/-- Whether an `Except` computation failed. -/
def exceptIsError {ε α : Type} : Except ε α → Bool
  | .error _ => true
  | .ok _ => false

/-- ASCII characters (single-byte UTF-8). -/
def asciiChar (c : Char) : Bool := c.toNat < 128

/-- The round trip of claim C1: encode a create script, then decode it when
encoding succeeded. -/
def createRoundTrip (h160 : List Nat) (asset : List Char) (amount : Int) (divisions : Int)
    (reissuable : Bool) (associatedData : Option (List Nat)) :
    Option (Except PyErr (Option AssetVoutInformation)) :=
  (generate_create_script h160 asset amount divisions reissuable associatedData).toOption.map
    get_asset_info_from_script

/-- The create-script asset payload that `generate_create_script` pushes. -/
def createPayload (asset : List Char) (amount divisions : Int)
    (reissuable : Bool) (associatedData : Option (List Nat)) : List Nat :=
  RVN_ASSET_PREFIX ++ RVN_ASSET_TYPE_CREATE ++
  intToBytesLE asset.length 1 ++ utf8Encode asset ++
  intToBytesLEI amount 8 ++ intToBytesLEI divisions 1 ++
  [if reissuable then 1 else 0] ++
  [if pyTruthyBytes associatedData then 1 else 0] ++
  (if pyTruthyBytes associatedData then associatedData.getD [] else [])

/-! ## Auxiliary lemmas: `pySplit`, `stripNL` and the character classes -/

theorem pySplit_ne_nil (c : Char) (s : List Char) : pySplit c s ≠ [] := by
  induction s with
  | nil => simp [pySplit]
  | cons x xs ih =>
    unfold pySplit
    split
    · simp
    · match h : pySplit c xs with
      | [] => exact absurd h ih
      | h2 :: t => simp

theorem pySplit_step_sep (c : Char) (xs : List Char) :
    pySplit c (c :: xs) = [] :: pySplit c xs := by
  simp [pySplit]

theorem pySplit_step_ne (c x : Char) (xs a : List Char) (b : List (List Char))
    (hx : x ≠ c) (hpy : pySplit c xs = a :: b) :
    pySplit c (x :: xs) = (x :: a) :: b := by
  simp [pySplit, hx, hpy]

theorem pySplit_cons_exists (c : Char) (s : List Char) :
    ∃ a b, pySplit c s = a :: b := by
  cases hpy : pySplit c s with
  | nil => exact absurd hpy (pySplit_ne_nil c s)
  | cons a b => exact ⟨a, b, rfl⟩

theorem pySplit_pair (c : Char) (l r : List Char) (hl : l.all (fun x => x ≠ c) = true) :
    pySplit c (l ++ c :: r) = l :: pySplit c r := by
  induction l with
  | nil => simpa using pySplit_step_sep c r
  | cons x xs ih =>
    simp only [List.all_cons, Bool.and_eq_true, decide_eq_true_eq] at hl
    rw [List.cons_append, pySplit_step_ne c x _ xs (pySplit c r) hl.1 (ih hl.2)]

theorem pySplit_single (c : Char) (s : List Char) (h : s.all (fun x => x ≠ c) = true) :
    pySplit c s = [s] := by
  induction s with
  | nil => rfl
  | cons x xs ih =>
    simp only [List.all_cons, Bool.and_eq_true, decide_eq_true_eq] at h
    rw [pySplit_step_ne c x xs xs [] h.1 (ih h.2)]

theorem pySplit_single_inv (c : Char) (s t : List Char) (h : pySplit c s = [t]) :
    s = t ∧ t.all (fun x => x ≠ c) = true := by
  induction s generalizing t with
  | nil =>
    simp [pySplit] at h
    subst h
    exact ⟨rfl, rfl⟩
  | cons x xs ih =>
    by_cases hx : x = c
    · subst hx
      rw [pySplit_step_sep x xs] at h
      obtain ⟨a, b, hpy⟩ := pySplit_cons_exists x xs
      rw [hpy] at h
      simp at h
    · obtain ⟨a, b, hpy⟩ := pySplit_cons_exists c xs
      rw [pySplit_step_ne c x xs a b hx hpy] at h
      simp only [List.cons.injEq] at h
      obtain ⟨h1, h2⟩ := h
      subst h2
      obtain ⟨e1, e2⟩ := ih a hpy
      subst h1
      subst e1
      simp only [List.all_cons, Bool.and_eq_true, decide_eq_true_eq]
      exact ⟨trivial, hx, e2⟩

theorem pySplit_pair_inv (c : Char) (s l r : List Char) (h : pySplit c s = [l, r]) :
    s = l ++ c :: r ∧ l.all (fun x => x ≠ c) = true ∧ r.all (fun x => x ≠ c) = true := by
  induction s generalizing l with
  | nil => simp [pySplit] at h
  | cons x xs ih =>
    by_cases hx : x = c
    · subst hx
      rw [pySplit_step_sep x xs] at h
      simp only [List.cons.injEq] at h
      obtain ⟨h1, h2⟩ := h
      subst h1
      obtain ⟨e1, e2⟩ := pySplit_single_inv x xs r h2
      subst e1
      exact ⟨rfl, rfl, e2⟩
    · obtain ⟨a, b, hpy⟩ := pySplit_cons_exists c xs
      rw [pySplit_step_ne c x xs a b hx hpy] at h
      simp only [List.cons.injEq] at h
      obtain ⟨h1, h2⟩ := h
      subst h2
      obtain ⟨e1, e2, e3⟩ := ih a hpy
      subst h1
      subst e1
      refine ⟨rfl, ?_, e3⟩
      simp only [List.all_cons, Bool.and_eq_true, decide_eq_true_eq]
      exact ⟨hx, e2⟩

theorem all_of_pySplit {P : Char → Bool} (c : Char) (s : List Char)
    (h : ∀ p ∈ pySplit c s, p.all P = true) :
    s.all (fun x => P x || x = c) = true := by
  induction s with
  | nil => rfl
  | cons x xs ih =>
    by_cases hx : x = c
    · subst hx
      rw [pySplit_step_sep x xs] at h
      simp only [List.all_cons, Bool.or_eq_true, decide_eq_true_eq, Bool.and_eq_true]
      refine ⟨Or.inr trivial, ?_⟩
      exact ih (fun p hp => h p (List.mem_cons_of_mem _ hp))
    · obtain ⟨a, b, hpy⟩ := pySplit_cons_exists c xs
      rw [pySplit_step_ne c x xs a b hx hpy] at h
      have hxa := h _ (List.mem_cons_self _ _)
      simp only [List.all_cons, Bool.and_eq_true] at hxa
      simp only [List.all_cons, Bool.or_eq_true, decide_eq_true_eq, Bool.and_eq_true]
      refine ⟨Or.inl hxa.1, ?_⟩
      refine ih (fun p hp => ?_)
      rw [hpy] at hp
      rcases List.mem_cons.mp hp with rfl | hpb
      · exact hxa.2
      · exact h p (List.mem_cons_of_mem _ hpb)

theorem stripNL_cases (s : List Char) : s = stripNL s ∨ s = stripNL s ++ ['\n'] := by
  unfold stripNL
  by_cases h : s.getLast? = some '\n'
  · rw [if_pos h]
    right
    have hne : s ≠ [] := by rintro rfl; simp at h
    have hlast : s.getLast hne = '\n' := by
      have h2 := List.getLast?_eq_getLast s hne
      rw [h2] at h
      exact (Option.some.injEq _ _ ▸ h)
    calc s = s.dropLast ++ [s.getLast hne] := (List.dropLast_append_getLast hne).symm
    _ = s.dropLast ++ ['\n'] := by rw [hlast]
  · rw [if_neg h]; left; rfl

theorem all_of_stripNL {P : Char → Bool} (s : List Char) (h : (stripNL s).all P = true) :
    s.all (fun c => P c || c = '\n') = true := by
  rcases stripNL_cases s with hc | hc
  · rw [List.all_eq_true] at h ⊢
    intro x hx
    rw [hc] at hx
    simp only [Bool.or_eq_true, decide_eq_true_eq]
    exact Or.inl (h x hx)
  · rw [List.all_eq_true] at h ⊢
    intro x hx
    rw [hc] at hx
    simp only [Bool.or_eq_true, decide_eq_true_eq]
    rcases List.mem_append.mp hx with hx1 | hx2
    · exact Or.inl (h x hx1)
    · simp only [List.mem_singleton] at hx2
      exact Or.inr hx2

theorem all_stripNL_of_all {P : Char → Bool} (s : List Char) (h : s.all P = true) :
    (stripNL s).all P = true := by
  unfold stripNL
  split
  · rw [List.all_eq_true] at h ⊢
    exact fun x hx => h x (List.dropLast_subset s hx)
  · exact h

theorem stripNL_append (l m : List Char) (hm : m ≠ []) :
    stripNL (l ++ m) = l ++ stripNL m := by
  have hgl := List.getLast?_eq_getLast m hm
  have hg : (l ++ m).getLast? = m.getLast? := by
    rw [List.getLast?_append, hgl]
    rfl
  unfold stripNL
  rw [hg]
  by_cases hsp : m.getLast? = some '\n'
  · rw [if_pos hsp, if_pos hsp, List.dropLast_append,
      if_neg (by simp [List.isEmpty_iff, hm])]
  · rw [if_neg hsp, if_neg hsp]

theorem rootChar_ascii (c : Char) (h : rootChar c = true) : c.toNat < 128 := by
  simp only [rootChar, isUpperAZ, isDigit09, Bool.or_eq_true, Bool.and_eq_true,
    decide_eq_true_eq, or_assoc] at h
  have h1 : 'Z'.toNat = 90 := rfl
  have h2 : '9'.toNat = 57 := rfl
  rcases h with h | h | h | h
  · omega
  · omega
  · subst h; decide
  · subst h; decide

theorem uniqueTagChar_ascii (c : Char) (h : uniqueTagChar c = true) : c.toNat < 128 := by
  simp only [uniqueTagChar, isUpperAZ, isLowerAZ, isDigit09, Bool.or_eq_true,
    Bool.and_eq_true, decide_eq_true_eq, or_assoc] at h
  have h1 : 'Z'.toNat = 90 := rfl
  have h2 : 'z'.toNat = 122 := rfl
  have h3 : '9'.toNat = 57 := rfl
  rcases h with h|h|h|h|h|h|h|h|h|h|h|h|h|h|h|h|h|h|h <;>
    first
      | omega
      | (subst h; decide)

theorem msgChannelChar_ascii (c : Char) (h : msgChannelChar c = true) : c.toNat < 128 := by
  simp only [msgChannelChar, isUpperAZ, isLowerAZ, isDigit09, Bool.or_eq_true,
    Bool.and_eq_true, decide_eq_true_eq, or_assoc] at h
  have h1 : 'Z'.toNat = 90 := rfl
  have h2 : 'z'.toNat = 122 := rfl
  have h3 : '9'.toNat = 57 := rfl
  rcases h with h | h | h | h
  · omega
  · omega
  · omega
  · subst h; decide

theorem validBeforeTag_ne_nil (s : List Char) (h : isNameValidBeforeTag s = true) : s ≠ [] := by
  rintro rfl
  revert h
  decide

theorem matchSubNameChars_chars (p : List Char) (h : matchSubNameChars p = true) :
    p.all (fun c => rootChar c || c = '\n') = true := by
  simp only [matchSubNameChars, Bool.and_eq_true] at h
  exact all_of_stripNL p h.2

theorem matchRootNameChars_chars (p : List Char) (h : matchRootNameChars p = true) :
    p.all (fun c => rootChar c || c = '\n') = true := by
  simp only [matchRootNameChars, Bool.and_eq_true] at h
  exact all_of_stripNL p h.2

theorem validBeforeTag_chars (s : List Char) (h : isNameValidBeforeTag s = true) :
    s.all (fun x => (rootChar x || x = '\n') || x = '/') = true := by
  unfold isNameValidBeforeTag at h
  obtain ⟨root, subs, hsp⟩ := pySplit_cons_exists '/' s
  rw [hsp] at h
  simp only [Bool.and_eq_true] at h
  have hall : ∀ p ∈ pySplit '/' s, p.all (fun c => rootChar c || c = '\n') = true := by
    intro p hp
    rw [hsp] at hp
    rcases List.mem_cons.mp hp with rfl | hps
    · have hr : matchRootNameChars p = true := by
        have h1 := h.1
        simp only [isRootNameValid, Bool.and_eq_true] at h1
        exact h1.1
      exact matchRootNameChars_chars p hr
    · have hsv : isSubNameValid p = true := List.all_eq_true.mp h.2 p hps
      simp only [isSubNameValid, Bool.and_eq_true] at hsv
      exact matchSubNameChars_chars p hsv.1
  exact all_of_pySplit '/' s hall

theorem leftQ_indicatorLeftChar (c : Char) (h : ((rootChar c || c = '\n') || c = '/') = true) :
    indicatorLeftChar c = true := by
  cases hi : indicatorLeftChar c
  · exfalso
    simp only [indicatorLeftChar, Bool.not_eq_false', Bool.or_eq_true,
      decide_eq_true_eq, or_assoc] at hi
    rcases hi with hh | hh | hh | hh <;> (subst hh; revert h; decide)
  · rfl

theorem indicatorLeftChar_ne_hash (c : Char) (h : indicatorLeftChar c = true) : c ≠ '#' := by
  rintro rfl
  revert h
  decide

theorem uniqueTagChar_right (c : Char) (h : uniqueTagChar c = true) :
    uniqueIndicatorRightChar c = true := by
  cases hi : uniqueIndicatorRightChar c
  · exfalso
    simp only [uniqueIndicatorRightChar, Bool.not_eq_false', Bool.or_eq_true,
      decide_eq_true_eq, or_assoc] at hi
    rcases hi with hh | hh | hh | hh <;> (subst hh; revert h; decide)
  · rfl

theorem uniqueTagChar_ne_hash (c : Char) (h : uniqueTagChar c = true) : c ≠ '#' := by
  rintro rfl
  revert h
  decide

theorem typed_unique_intro (name : List Char) (hlen : name.length ≤ 32)
    (h2 : (pySplit '#' name).length ≠ 1)
    (h3 : isNameValidBeforeTag ((pySplit '#' name).headD []) = true)
    (h4 : isUniqueTagValid ((pySplit '#' name).getLastD []) = true) :
    getErrorForAssetTyped name .UNIQUE = none := by
  unfold getErrorForAssetTyped
  simp only [MAX_NAME_LENGTH]
  rw [if_neg (by simp), if_neg (by simp), if_neg (by simp), if_neg (by omega),
    if_pos trivial, if_neg h2, if_neg (by
      simp only [List.headD_eq_head?_getD] at h3
      simp only [List.getLastD_eq_getLast?] at h4
      simp [h3, h4])]

/-- Claim C8 (amended): a Unique name built from a valid Root/Sub left side
and a charset-conforming tag is accepted whenever its overall length is at
most 32 (`MAX_NAME_LENGTH`); the name is classified Unique by the indicator
pattern and passes both the top-level 40-character check and the stricter
32-character taxonomy cap. -/
theorem unique_name_within_32_accepted (left tag : List Char)
    (hleft : isNameValidBeforeTag left = true)
    (htag : isUniqueTagValid tag = true)
    (hlen : (left ++ '#' :: tag).length ≤ 32) :
    matchUniqueIndicator (left ++ '#' :: tag) = true ∧
    getErrorForAssetName (left ++ '#' :: tag) = none := by
  have hleftQ := validBeforeTag_chars left hleft
  have hleftInd : left.all indicatorLeftChar = true := by
    rw [List.all_eq_true] at hleftQ ⊢
    exact fun x hx => leftQ_indicatorLeftChar x (hleftQ x hx)
  have hleftNoHash : left.all (fun x => x ≠ '#') = true := by
    rw [List.all_eq_true] at hleftInd ⊢
    intro x hx
    simpa using indicatorLeftChar_ne_hash x (hleftInd x hx)
  have hleftNe : left ≠ [] := validBeforeTag_ne_nil left hleft
  have htag2 : stripNL tag ≠ [] ∧ (stripNL tag).all uniqueTagChar = true := by
    have h0 := htag
    simp only [isUniqueTagValid, matchUniqueTagChars, Bool.and_eq_true,
      decide_eq_true_eq] at h0
    exact h0
  have htagNe : tag ≠ [] := by
    rintro rfl
    revert htag
    decide
  have htagNoHash : tag.all (fun x => x ≠ '#') = true := by
    have htQ := all_of_stripNL tag htag2.2
    rw [List.all_eq_true] at htQ ⊢
    intro x hx
    have hq := htQ x hx
    simp only [Bool.or_eq_true, decide_eq_true_eq] at hq
    rcases hq with hq | hq
    · simpa using uniqueTagChar_ne_hash x hq
    · subst hq; decide
  have hcoreNoHash : (stripNL tag).all (fun x => x ≠ '#') = true := by
    rw [List.all_eq_true] at htag2 ⊢
    exact fun x hx => by simpa using uniqueTagChar_ne_hash x (htag2.2 x hx)
  have hcoreRight : (stripNL tag).all uniqueIndicatorRightChar = true := by
    rw [List.all_eq_true] at htag2 ⊢
    exact fun x hx => uniqueTagChar_right x (htag2.2 x hx)
  have hsplit2 : stripNL (left ++ '#' :: tag) = left ++ '#' :: stripNL tag := by
    rw [stripNL_append left ('#' :: tag) (by simp)]
    rw [show ('#' :: tag : List Char) = ['#'] ++ tag from rfl,
      stripNL_append ['#'] tag htagNe]
    rfl
  have hind : matchUniqueIndicator (left ++ '#' :: tag) = true := by
    unfold matchUniqueIndicator
    rw [hsplit2, pySplit_pair '#' left (stripNL tag) hleftNoHash,
      pySplit_single '#' (stripNL tag) hcoreNoHash]
    simp [hleftNe, hleftInd, htag2.1, hcoreRight]
  refine ⟨hind, ?_⟩
  have hpair : pySplit '#' (left ++ '#' :: tag) = [left, tag] := by
    rw [pySplit_pair '#' left tag hleftNoHash, pySplit_single '#' tag htagNoHash]
  unfold getErrorForAssetName
  rw [if_neg (by omega), if_pos hind]
  refine typed_unique_intro (left ++ '#' :: tag) hlen ?_ ?_ ?_
  · rw [hpair]; simp
  · rw [hpair]; simpa using hleft
  · rw [hpair]; simpa using htag

/-- Witness for the amended claim C8 at `ABC#a` (length 5). -/
theorem unique_name_within_32_accepted_witness :
    isNameValidBeforeTag (cs "ABC") = true ∧
    isUniqueTagValid (cs "a") = true ∧
    (cs "ABC" ++ '#' :: cs "a").length ≤ 32 ∧
    getErrorForAssetName (cs "ABC" ++ '#' :: cs "a") = none :=
  ⟨by decide, by decide, by decide,
    (unique_name_within_32_accepted (cs "ABC") (cs "a")
      (by decide) (by decide) (by decide)).2⟩

/-! ## Validator analysis: accepted names are ASCII -/

theorem validBeforeTag_ascii (s : List Char) (h : isNameValidBeforeTag s = true) :
    s.all asciiChar = true := by
  have hq := validBeforeTag_chars s h
  rw [List.all_eq_true] at hq ⊢
  intro x hx
  have hx2 := hq x hx
  simp only [Bool.or_eq_true, decide_eq_true_eq] at hx2
  simp only [asciiChar, decide_eq_true_eq]
  rcases hx2 with (hc | hc) | hc
  · exact rootChar_ascii x hc
  · subst hc; decide
  · subst hc; decide

theorem rootCharNL_ascii (s : List Char)
    (h : s.all (fun c => rootChar c || c = '\n') = true) : s.all asciiChar = true := by
  rw [List.all_eq_true] at h ⊢
  intro x hx
  have hx2 := h x hx
  simp only [Bool.or_eq_true, decide_eq_true_eq] at hx2
  simp only [asciiChar, decide_eq_true_eq]
  rcases hx2 with hc | hc
  · exact rootChar_ascii x hc
  · subst hc; decide

theorem uniqueTag_ascii (r : List Char) (h : isUniqueTagValid r = true) :
    r.all asciiChar = true := by
  simp only [isUniqueTagValid, matchUniqueTagChars, Bool.and_eq_true] at h
  have hq := all_of_stripNL r h.2
  rw [List.all_eq_true] at hq ⊢
  intro x hx
  have hx2 := hq x hx
  simp only [Bool.or_eq_true, decide_eq_true_eq] at hx2
  simp only [asciiChar, decide_eq_true_eq]
  rcases hx2 with hc | hc
  · exact uniqueTagChar_ascii x hc
  · subst hc; decide

theorem msgTag_ascii (r : List Char) (h : isMsgChannelTagValid r = true) :
    r.all asciiChar = true := by
  simp only [isMsgChannelTagValid, matchMsgChannelTagChars, Bool.and_eq_true] at h
  have hq := all_of_stripNL r h.1.2
  rw [List.all_eq_true] at hq ⊢
  intro x hx
  have hx2 := hq x hx
  simp only [Bool.or_eq_true, decide_eq_true_eq] at hx2
  simp only [asciiChar, decide_eq_true_eq]
  rcases hx2 with hc | hc
  · exact msgChannelChar_ascii x hc
  · subst hc; decide

theorem stripNL_rootChar_ascii (rest : List Char)
    (h : (stripNL rest).all rootChar = true) : rest.all asciiChar = true :=
  rootCharNL_ascii rest (all_of_stripNL rest h)

theorem typed_unique_none (name : List Char) (h : getErrorForAssetTyped name .UNIQUE = none) :
    isNameValidBeforeTag ((pySplit '#' name).headD []) = true ∧
    isUniqueTagValid ((pySplit '#' name).getLastD []) = true := by
  unfold getErrorForAssetTyped at h
  rw [if_neg (by simp), if_neg (by simp), if_neg (by simp)] at h
  split at h
  · simp at h
  · rw [if_pos rfl] at h
    split at h
    · simp at h
    · split at h
      · simp at h
      · rename_i hcond
        simp only [Bool.or_eq_true, Bool.not_eq_true', not_or, Bool.not_eq_false] at hcond
        exact hcond

theorem typed_msg_none (name : List Char) (h : getErrorForAssetTyped name .MSG_CHANNEL = none) :
    isNameValidBeforeTag ((pySplit '~' name).headD []) = true ∧
    isMsgChannelTagValid ((pySplit '~' name).getLastD []) = true := by
  unfold getErrorForAssetTyped at h
  rw [if_neg (by simp), if_neg (by simp), if_neg (by simp)] at h
  split at h
  · simp at h
  · rw [if_neg (by simp), if_pos rfl] at h
    split at h
    · simp at h
    · split at h
      · simp at h
      · split at h
        · simp at h
        · rename_i hcond
          simp only [Bool.or_eq_true, Bool.not_eq_true', not_or, Bool.not_eq_false] at hcond
          exact hcond

theorem typed_owner_none (name : List Char) (h : getErrorForAssetTyped name .OWNER = none) :
    isNameValidBeforeTag name.dropLast = true := by
  unfold getErrorForAssetTyped at h
  rw [if_neg (by simp), if_neg (by simp), if_neg (by simp)] at h
  split at h
  · simp at h
  · rw [if_neg (by simp), if_neg (by simp), if_pos rfl] at h
    split at h
    · simp at h
    · rename_i hcond
      simpa using hcond

set_option maxHeartbeats 1000000 in
theorem typed_rootsub_none (name : List Char) (t : AssetType) (ht : t = .ROOT ∨ t = .SUB)
    (h : getErrorForAssetTyped name t = none) : isNameValidBeforeTag name = true := by
  unfold getErrorForAssetTyped at h
  have inner : ∀ h2 : (if MAX_NAME_LENGTH - 1 < name.length then
        some (cs "Name is greater than max length of 31.")
      else if !(isAssetNameASubAsset name) && name.length < MIN_ASSET_LENGTH then
        some (cs "Name must contain at least 3 characters.")
      else if !(isNameValidBeforeTag name) && isAssetNameASubAsset name &&
          name.length < MIN_ASSET_LENGTH then
        some (cs "Name must have at least 3 characters.")
      else if !(isNameValidBeforeTag name) then
        some (cs "Name contains invalid characters.")
      else none) = none, isNameValidBeforeTag name = true := by
    intro h2
    by_cases e1 : MAX_NAME_LENGTH - 1 < name.length
    · rw [if_pos e1] at h2; simp at h2
    · rw [if_neg e1] at h2
      by_cases e2 : (!(isAssetNameASubAsset name) &&
          decide (name.length < MIN_ASSET_LENGTH)) = true
      · rw [if_pos e2] at h2; simp at h2
      · rw [if_neg e2] at h2
        by_cases e3 : (!(isNameValidBeforeTag name) && isAssetNameASubAsset name &&
            decide (name.length < MIN_ASSET_LENGTH)) = true
        · rw [if_pos e3] at h2; simp at h2
        · rw [if_neg e3] at h2
          by_cases e4 : (!(isNameValidBeforeTag name)) = true
          · rw [if_pos e4] at h2; simp at h2
          · simpa using e4
  rcases ht with rfl | rfl
  · rw [if_neg (by simp)] at h
    by_cases hc : name.contains '/' = true
    · rw [if_pos (by rw [Bool.and_eq_true]; exact ⟨by decide, hc⟩)] at h
      simp at h
    · have hmem : '/' ∉ name := by simpa using hc
      rw [if_neg (by simp [hmem]), if_pos (by decide)] at h
      exact inner h
  · by_cases hc : name.contains '/' = true
    · have hmem : '/' ∈ name := by simpa using hc
      rw [if_neg (by simp [hmem]), if_neg (by simp), if_pos (by decide)] at h
      exact inner h
    · have hmem : '/' ∉ name := by simpa using hc
      rw [if_pos (by rw [Bool.and_eq_true]; exact ⟨by decide, by simpa using hmem⟩)] at h
      simp at h

theorem matchUniqueIndicator_shape (s : List Char) (h : matchUniqueIndicator s = true) :
    ∃ l r, pySplit '#' (stripNL s) = [l, r] := by
  unfold matchUniqueIndicator at h
  cases hsp : pySplit '#' (stripNL s) with
  | nil => rw [hsp] at h; simp at h
  | cons l t =>
    cases t with
    | nil => rw [hsp] at h; simp at h
    | cons r t2 =>
      cases t2 with
      | nil => exact ⟨l, r, rfl⟩
      | cons a b => rw [hsp] at h; simp at h

theorem matchMsgChannelIndicator_shape (s : List Char) (h : matchMsgChannelIndicator s = true) :
    ∃ l r, pySplit '~' (stripNL s) = [l, r] := by
  unfold matchMsgChannelIndicator at h
  cases hsp : pySplit '~' (stripNL s) with
  | nil => rw [hsp] at h; simp at h
  | cons l t =>
    cases t with
    | nil => rw [hsp] at h; simp at h
    | cons r t2 =>
      cases t2 with
      | nil => exact ⟨l, r, rfl⟩
      | cons a b => rw [hsp] at h; simp at h

theorem matchQualifierIndicator_shape (s : List Char) (h : matchQualifierIndicator s = true) :
    ∃ rest, s = '#' :: rest ∧ (stripNL rest).all rootChar = true := by
  cases s with
  | nil => simp [matchQualifierIndicator] at h
  | cons c rest =>
    by_cases hc : c = '#'
    · subst hc
      simp only [matchQualifierIndicator, if_true, Bool.and_eq_true] at h
      exact ⟨rest, rfl, h.2⟩
    · simp [matchQualifierIndicator, hc] at h

theorem matchRestrictedIndicator_shape (s : List Char) (h : matchRestrictedIndicator s = true) :
    ∃ rest, s = '$' :: rest ∧ (stripNL rest).all rootChar = true := by
  cases s with
  | nil => simp [matchRestrictedIndicator] at h
  | cons c rest =>
    by_cases hc : c = '$'
    · subst hc
      simp only [matchRestrictedIndicator, if_true, Bool.and_eq_true] at h
      exact ⟨rest, rfl, h.2⟩
    · simp [matchRestrictedIndicator, hc] at h

theorem matchSubQualifierIndicator_shape (s : List Char) (h : matchSubQualifierIndicator s = true) :
    ∃ a b, pySplit '/' (stripNL s) = ['#' :: a, '#' :: b] ∧
      a.all rootChar = true ∧ b.all rootChar = true := by
  unfold matchSubQualifierIndicator at h
  cases hsp : pySplit '/' (stripNL s) with
  | nil => rw [hsp] at h; simp at h
  | cons p t =>
    cases t with
    | nil => rw [hsp] at h; simp at h
    | cons q t2 =>
      cases t2 with
      | cons x y => rw [hsp] at h; simp at h
      | nil =>
        rw [hsp] at h
        cases p with
        | nil => simp at h
        | cons cp a =>
          cases q with
          | nil => simp at h
          | cons cq b =>
            simp only [Bool.and_eq_true, decide_eq_true_eq] at h
            obtain ⟨⟨⟨⟨⟨hcp, hcq⟩, ha⟩, ha2⟩, hb⟩, hb2⟩ := h
            subst hcp
            subst hcq
            exact ⟨a, b, rfl, ha2, hb2⟩

theorem matchOwnerIndicator_parts (s : List Char) (h : matchOwnerIndicator s = true) :
    (stripNL s).getLast? = some '!' := by
  simp only [matchOwnerIndicator, Bool.and_eq_true, decide_eq_true_eq] at h
  exact h.1.1

/-- Every name the validator accepts is pure ASCII and at most 40 chars. -/
theorem valid_name_ascii (name : List Char) (h : getErrorForAssetName name = none) :
    name.all asciiChar = true ∧ name.length ≤ 40 := by
  unfold getErrorForAssetName at h
  by_cases h40 : 40 < name.length
  · rw [if_pos h40] at h; simp at h
  · rw [if_neg h40] at h
    refine ⟨?_, by omega⟩
    by_cases hU : matchUniqueIndicator name = true
    · rw [if_pos hU] at h
      obtain ⟨l, r, hsp⟩ := matchUniqueIndicator_shape name hU
      obtain ⟨hrec, hlf, hrf⟩ := pySplit_pair_inv '#' (stripNL name) l r hsp
      have key : ∀ r', name = l ++ '#' :: r' → r'.all (fun x => x ≠ '#') = true →
          name.all asciiChar = true := by
        intro r' hname hrf'
        have hps : pySplit '#' name = [l, r'] := by
          rw [hname, pySplit_pair '#' l r' hlf, pySplit_single '#' r' hrf']
        obtain ⟨hv, ht⟩ := typed_unique_none name h
        rw [hps] at hv ht
        have hl : l.all asciiChar = true := validBeforeTag_ascii l hv
        have hr : r'.all asciiChar = true := uniqueTag_ascii r' ht
        rw [hname]
        simp only [List.all_append, List.all_cons, Bool.and_eq_true]
        exact ⟨hl, by decide, hr⟩
      rcases stripNL_cases name with hc | hc
      · exact key r (by rw [hc, hrec]) hrf
      · refine key (r ++ ['\n']) (by rw [hc, hrec]; simp) ?_
        rw [List.all_append, Bool.and_eq_true]
        exact ⟨hrf, by decide⟩
    · rw [if_neg hU] at h
      by_cases hM : matchMsgChannelIndicator name = true
      · rw [if_pos hM] at h
        obtain ⟨l, r, hsp⟩ := matchMsgChannelIndicator_shape name hM
        obtain ⟨hrec, hlf, hrf⟩ := pySplit_pair_inv '~' (stripNL name) l r hsp
        have key : ∀ r', name = l ++ '~' :: r' → r'.all (fun x => x ≠ '~') = true →
            name.all asciiChar = true := by
          intro r' hname hrf'
          have hps : pySplit '~' name = [l, r'] := by
            rw [hname, pySplit_pair '~' l r' hlf, pySplit_single '~' r' hrf']
          obtain ⟨hv, ht⟩ := typed_msg_none name h
          rw [hps] at hv ht
          have hl : l.all asciiChar = true := validBeforeTag_ascii l hv
          have hr : r'.all asciiChar = true := msgTag_ascii r' ht
          rw [hname]
          simp only [List.all_append, List.all_cons, Bool.and_eq_true]
          exact ⟨hl, by decide, hr⟩
        rcases stripNL_cases name with hc | hc
        · exact key r (by rw [hc, hrec]) hrf
        · refine key (r ++ ['\n']) (by rw [hc, hrec]; simp) ?_
          rw [List.all_append, Bool.and_eq_true]
          exact ⟨hrf, by decide⟩
      · rw [if_neg hM] at h
        by_cases hO : matchOwnerIndicator name = true
        · rw [if_pos hO] at h
          have hv := typed_owner_none name h
          have hne : name ≠ [] := by
            rintro rfl
            revert hO
            decide
          have hlast : name.getLast? = some '!' ∨ name.getLast? = some '\n' := by
            rcases stripNL_cases name with hc | hc
            · left
              rw [hc]
              exact matchOwnerIndicator_parts name hO
            · right
              rw [hc]
              exact List.getLast?_concat _
          have hd : name.dropLast.all asciiChar = true := validBeforeTag_ascii _ hv
          have hrw := List.dropLast_append_getLast hne
          have hlast2 : asciiChar (name.getLast hne) = true := by
            have hg := List.getLast?_eq_getLast name hne
            rcases hlast with hc | hc <;> rw [hg] at hc <;>
              (simp only [Option.some.injEq] at hc; rw [hc]; decide)
          calc name.all asciiChar = (name.dropLast ++ [name.getLast hne]).all asciiChar := by
                rw [hrw]
          _ = true := by
                simp only [List.all_append, List.all_cons, Bool.and_eq_true]
                exact ⟨hd, hlast2, by decide⟩
        · rw [if_neg hO] at h
          by_cases hQ : matchQualifierIndicator name = true
          · rw [if_pos hQ] at h
            obtain ⟨rest, hname, hrc⟩ := matchQualifierIndicator_shape name hQ
            rw [hname]
            simp only [List.all_cons, Bool.and_eq_true]
            exact ⟨by decide, stripNL_rootChar_ascii rest hrc⟩
          · rw [if_neg hQ] at h
            by_cases hSQ : matchSubQualifierIndicator name = true
            · rw [if_pos hSQ] at h
              obtain ⟨a, b, hsp, ha, hb⟩ := matchSubQualifierIndicator_shape name hSQ
              obtain ⟨hrec, hlf, hrf⟩ := pySplit_pair_inv '/' (stripNL name) _ _ hsp
              have hstrip : (stripNL name).all asciiChar = true := by
                rw [hrec]
                simp only [List.all_append, List.all_cons, Bool.and_eq_true]
                refine ⟨⟨by decide, ?_⟩, by decide, by decide, ?_⟩
                · exact rootCharNL_ascii a (by
                    rw [List.all_eq_true] at ha ⊢
                    intro x hx
                    simp only [Bool.or_eq_true, decide_eq_true_eq]
                    exact Or.inl (ha x hx))
                · exact rootCharNL_ascii b (by
                    rw [List.all_eq_true] at hb ⊢
                    intro x hx
                    simp only [Bool.or_eq_true, decide_eq_true_eq]
                    exact Or.inl (hb x hx))
              rcases stripNL_cases name with hc | hc
              · rw [hc]; exact hstrip
              · rw [hc]
                simp only [List.all_append, List.all_cons, Bool.and_eq_true]
                exact ⟨hstrip, by decide, by decide⟩
            · rw [if_neg hSQ] at h
              by_cases hR : matchRestrictedIndicator name = true
              · rw [if_pos hR] at h
                obtain ⟨rest, hname, hrc⟩ := matchRestrictedIndicator_shape name hR
                rw [hname]
                simp only [List.all_cons, Bool.and_eq_true]
                exact ⟨by decide, stripNL_rootChar_ascii rest hrc⟩
              · rw [if_neg hR] at h
                refine validBeforeTag_ascii name (typed_rootsub_none name _ ?_ h)
                by_cases hs : isAssetNameASubAsset name = true <;> simp [hs]

/-! ## Byte-level encoding lemmas -/

theorem length_intToBytesLE (n len : Nat) : (intToBytesLE n len).length = len := by
  induction len generalizing n with
  | zero => rfl
  | succ k ih => simp [intToBytesLE, ih]

theorem fromBytesLE_intToBytesLE (n len : Nat) :
    fromBytesLE (intToBytesLE n len) = n % 256 ^ len := by
  induction len generalizing n with
  | zero => simp [intToBytesLE, fromBytesLE, Nat.mod_one]
  | succ k ih =>
    show fromBytesLE (n % 256 :: intToBytesLE (n / 256) k) = n % 256 ^ (k + 1)
    have : fromBytesLE (n % 256 :: intToBytesLE (n / 256) k) =
        n % 256 + 256 * fromBytesLE (intToBytesLE (n / 256) k) := rfl
    rw [this, ih, pow_succ, mul_comm (256 ^ k) 256, Nat.mod_mul]

theorem intToBytesLEI_eq (i : Int) (len : Nat) (h0 : 0 ≤ i) (h1 : i < (256 : Int) ^ len) :
    intToBytesLEI i len = intToBytesLE i.toNat len := by
  unfold intToBytesLEI
  congr 1
  rw [Int.emod_eq_of_lt h0 h1]

theorem utf8EncodeChar_ascii (c : Char) (h : asciiChar c = true) :
    utf8EncodeChar c = [c.toNat] := by
  simp only [asciiChar, decide_eq_true_eq] at h
  unfold utf8EncodeChar
  rw [if_pos (by omega)]

theorem utf8Encode_ascii (s : List Char) (h : s.all asciiChar = true) :
    utf8Encode s = s.map Char.toNat := by
  induction s with
  | nil => rfl
  | cons c cs ih =>
    simp only [List.all_cons, Bool.and_eq_true] at h
    show utf8EncodeChar c ++ utf8Encode cs = c.toNat :: cs.map Char.toNat
    rw [utf8EncodeChar_ascii c h.1, ih h.2]
    rfl

theorem length_utf8Encode_ascii (s : List Char) (h : s.all asciiChar = true) :
    (utf8Encode s).length = s.length := by
  rw [utf8Encode_ascii s h, List.length_map]

theorem utf8DecodeAux_ascii (s : List Char) (h : s.all asciiChar = true) :
    utf8DecodeAux s.length (s.map Char.toNat) = some s := by
  induction s with
  | nil => rfl
  | cons c cs ih =>
    simp only [List.all_cons, Bool.and_eq_true] at h
    have hlt : c.toNat < 0x80 := by
      have h1 := h.1
      simp only [asciiChar, decide_eq_true_eq] at h1
      exact h1
    show utf8DecodeAux (cs.length + 1) (c.toNat :: cs.map Char.toNat) = some (c :: cs)
    rw [utf8DecodeAux.eq_def]
    dsimp only
    rw [if_pos hlt, ih h.2]
    simp only [Option.map_some', Char.ofNat_toNat]

theorem utf8Decode_ascii (s : List Char) (h : s.all asciiChar = true) :
    utf8Decode (s.map Char.toNat) = some s := by
  unfold utf8Decode
  rw [List.length_map]
  exact utf8DecodeAux_ascii s h

/-! ## Disassembly lemmas -/

theorem sgoa_nil (fuel i : Nat) : scriptGetOpAux fuel [] i = some [] := by
  cases fuel <;> rfl

theorem sgoa_nonpush (fuel fuel' op : Nat) (rest : List Nat) (i : Nat)
    (hf : fuel = fuel' + 1) (h : 0x4e < op) :
    scriptGetOpAux fuel (op :: rest) i =
      (scriptGetOpAux fuel' rest (i + 1)).map ((op, none, i + 1) :: ·) := by
  subst hf
  rw [scriptGetOpAux.eq_def]
  dsimp only
  rw [if_neg (by simp only [OP_PUSHDATA4]; omega)]

theorem sgoa_smallpush (fuel fuel' op : Nat) (rest : List Nat) (i : Nat)
    (hf : fuel = fuel' + 1) (h : op < 0x4c) (hlen : op ≤ rest.length) :
    scriptGetOpAux fuel (op :: rest) i =
      (scriptGetOpAux fuel' (rest.drop op) (i + 1 + op)).map
        ((op, some (rest.take op), i + 1 + op) :: ·) := by
  subst hf
  rw [scriptGetOpAux.eq_def]
  dsimp only
  rw [if_pos (by simp only [OP_PUSHDATA4]; omega), if_pos (by simp only [OP_PUSHDATA1]; omega),
    if_pos hlen]

theorem sgoa_pushdata1 (fuel fuel' n : Nat) (rest : List Nat) (i : Nat)
    (hf : fuel = fuel' + 1) (hlen : n ≤ rest.length) :
    scriptGetOpAux fuel (0x4c :: n :: rest) i =
      (scriptGetOpAux fuel' (rest.drop n) (i + 2 + n)).map
        ((0x4c, some (rest.take n), i + 2 + n) :: ·) := by
  subst hf
  rw [scriptGetOpAux.eq_def]
  dsimp only
  rw [if_pos (by simp only [OP_PUSHDATA4]; omega),
    if_neg (by simp only [OP_PUSHDATA1]; omega), if_pos rfl]
  rw [if_pos hlen]

/-- Disassembly of a canonical P2PKH-prefixed asset script: the base P2PKH
operations, the asset marker, one push of the whole payload, and the drop. -/
theorem scriptGetOp_create_shape (h160 payload : List Nat) (hh : h160.length = 20)
    (hle : payload.length ≤ 0xff) :
    ∃ pushOp endIdx,
      script_GetOp (0x76 :: 0xa9 :: 0x14 :: (h160 ++ (0x88 :: 0xac :: 0xc0 ::
        (opPush payload.length ++ (payload ++ [0x75]))))) =
      some [(0x76, none, 1), (0xa9, none, 2), (0x14, some h160, 23), (0x88, none, 24),
            (0xac, none, 25), (0xc0, none, 26), (pushOp, some payload, endIdx),
            (0x75, none, endIdx + 1)] := by
  by_cases hsm : payload.length < 0x4c
  · refine ⟨payload.length, 27 + payload.length, ?_⟩
    have hop : opPush payload.length = [payload.length] := by
      unfold opPush
      rw [if_pos hsm]
    rw [hop]
    have hlen : (0x76 :: 0xa9 :: 0x14 :: (h160 ++ (0x88 :: 0xac :: 0xc0 ::
        ([payload.length] ++ (payload ++ [0x75]))))).length = (27 + payload.length) + 1 := by
      simp only [List.length_cons, List.length_append, List.length_singleton, List.length_nil, hh]
      omega
    rw [script_GetOp, hlen]
    rw [sgoa_nonpush _ (27 + payload.length) _ _ _ rfl (by omega)]
    rw [sgoa_nonpush _ (26 + payload.length) _ _ _ (by omega) (by omega)]
    rw [sgoa_smallpush _ (25 + payload.length) _ _ _ (by omega) (by omega)
      (by simp only [List.length_append, hh]; omega)]
    rw [List.take_left' hh, List.drop_left' hh]
    rw [sgoa_nonpush _ (24 + payload.length) _ _ _ (by omega) (by omega)]
    rw [sgoa_nonpush _ (23 + payload.length) _ _ _ (by omega) (by omega)]
    rw [sgoa_nonpush _ (22 + payload.length) _ _ _ (by omega) (by omega)]
    rw [List.singleton_append]
    rw [sgoa_smallpush _ (21 + payload.length) _ _ _ (by omega) (by omega)
      (by simp only [List.length_append, List.length_singleton, List.length_cons, List.length_nil]; omega)]
    rw [List.take_left, List.drop_left]
    rw [sgoa_nonpush _ (20 + payload.length) _ _ _ (by omega) (by omega)]
    rw [sgoa_nil]
    simp only [Option.map_some']
  · refine ⟨0x4c, 28 + payload.length, ?_⟩
    have hop : opPush payload.length = [0x4c, payload.length] := by
      unfold opPush
      rw [if_neg hsm, if_pos hle]
    rw [hop]
    have hlen : (0x76 :: 0xa9 :: 0x14 :: (h160 ++ (0x88 :: 0xac :: 0xc0 ::
        ([0x4c, payload.length] ++ (payload ++ [0x75]))))).length =
        (28 + payload.length) + 1 := by
      simp only [List.length_cons, List.length_append, List.length_singleton, List.length_nil, hh]
      omega
    rw [script_GetOp, hlen]
    rw [sgoa_nonpush _ (28 + payload.length) _ _ _ rfl (by omega)]
    rw [sgoa_nonpush _ (27 + payload.length) _ _ _ (by omega) (by omega)]
    rw [sgoa_smallpush _ (26 + payload.length) _ _ _ (by omega) (by omega)
      (by simp only [List.length_append, hh]; omega)]
    rw [List.take_left' hh, List.drop_left' hh]
    rw [sgoa_nonpush _ (25 + payload.length) _ _ _ (by omega) (by omega)]
    rw [sgoa_nonpush _ (24 + payload.length) _ _ _ (by omega) (by omega)]
    rw [sgoa_nonpush _ (23 + payload.length) _ _ _ (by omega) (by omega)]
    rw [List.cons_append, List.singleton_append]
    rw [sgoa_pushdata1 _ (22 + payload.length) _ _ _ (by omega)
      (by simp only [List.length_append, List.length_singleton, List.length_cons, List.length_nil]; omega)]
    rw [List.take_left, List.drop_left]
    rw [sgoa_nonpush _ (21 + payload.length) _ _ _ (by omega) (by omega)]
    rw [sgoa_nil]
    simp only [Option.map_some']

/-- `bytes.find(b'rvn')` on a payload push framed by a one- or two-byte push
prefix: the first occurrence is right after the prefix. -/
theorem find_rvn_small (L : Nat) (rest : List Nat) :
    firstSubstrPos RVN_ASSET_PREFIX (L :: 0x72 :: 0x76 :: 0x6e :: rest) = some 1 := by
  unfold firstSubstrPos
  rw [if_neg (by simp [RVN_ASSET_PREFIX, List.isPrefixOf])]
  unfold firstSubstrPos
  rw [if_pos (by simp [RVN_ASSET_PREFIX, List.isPrefixOf])]
  rfl

theorem find_rvn_pushdata (L : Nat) (rest : List Nat) :
    firstSubstrPos RVN_ASSET_PREFIX (0x4c :: L :: 0x72 :: 0x76 :: 0x6e :: rest) = some 2 := by
  unfold firstSubstrPos
  rw [if_neg (by simp [RVN_ASSET_PREFIX, List.isPrefixOf])]
  unfold firstSubstrPos
  rw [if_neg (by simp [RVN_ASSET_PREFIX, List.isPrefixOf])]
  unfold firstSubstrPos
  rw [if_pos (by simp [RVN_ASSET_PREFIX, List.isPrefixOf])]
  rfl

/-! ## Round-trip lemmas for the create script (claim C1) -/

theorem createPayload_cons (asset : List Char) (amount divisions : Int)
    (reissuable : Bool) (ad : Option (List Nat)) (hall : asset.all asciiChar = true)
    (hlen : asset.length ≤ 40) :
    createPayload asset amount divisions reissuable ad =
    0x72 :: 0x76 :: 0x6e :: 0x71 :: asset.length ::
      (asset.map Char.toNat ++ (intToBytesLEI amount 8 ++ (intToBytesLEI divisions 1 ++
       ((if reissuable then 1 else 0) :: (if pyTruthyBytes ad then 1 else 0) ::
        (if pyTruthyBytes ad then ad.getD [] else []))))) := by
  have h1 : intToBytesLE asset.length 1 = [asset.length] := by
    show asset.length % 256 :: intToBytesLE (asset.length / 256) 0 = [asset.length]
    rw [Nat.mod_eq_of_lt (by omega)]
    rfl
  unfold createPayload
  rw [utf8Encode_ascii asset hall, h1]
  simp only [RVN_ASSET_PREFIX, RVN_ASSET_TYPE_CREATE, List.cons_append, List.nil_append,
    List.append_assoc, List.singleton_append]

theorem generate_create_script_ok (h160 : List Nat) (asset : List Char)
    (amount divisions : Int) (reissuable : Bool) (ad : Option (List Nat))
    (hname : getErrorForAssetName asset = none)
    (ha1 : 0 < amount) (ha2 : amount ≤ ((DEFAULT_ASSET_AMOUNT_MAX * COIN : Nat) : Int))
    (hd1 : 0 ≤ divisions) (hd2 : divisions ≤ 8)
    (hdata : ad = none ∨ ∃ d, ad = some d ∧ d.length = 34) :
    generate_create_script h160 asset amount divisions reissuable ad =
      .ok (0x76 :: 0xa9 :: 0x14 :: (h160 ++ (0x88 :: 0xac :: 0xc0 ::
        (opPush (createPayload asset amount divisions reissuable ad).length ++
         (createPayload asset amount divisions reissuable ad ++ [0x75]))))) := by
  unfold generate_create_script
  rw [if_neg (by rw [hname]; simp)]
  rw [if_neg (by simp only [Bool.or_eq_true, Bool.not_eq_true', decide_eq_false_iff_not,
    decide_eq_true_eq, not_or]; omega)]
  rw [if_neg (by simp only [Bool.or_eq_true, decide_eq_true_eq, not_or]; omega)]
  rw [if_neg (by
    rcases hdata with h | ⟨d, hd, hd34⟩
    · subst h; simp [pyTruthyBytes]
    · subst hd
      simp only [Bool.and_eq_true, decide_eq_true_eq, not_and, Option.getD_some]
      intro _
      simp [hd34])]
  show Except.ok (addressToScript h160 ++ constructScript
    [.op OP_ASSET, .data (createPayload asset amount divisions reissuable ad), .op OP_DROP]) = _
  simp only [addressToScript, constructScript, List.flatMap_cons, List.flatMap_nil,
    OP_ASSET, OP_DROP, List.append_assoc, List.cons_append, List.nil_append,
    List.append_nil, List.singleton_append]

theorem drop26_p2pkh (h160 tail : List Nat) (hh : h160.length = 20) :
    (0x76 :: 0xa9 :: 0x14 :: (h160 ++ (0x88 :: 0xac :: 0xc0 :: tail))).drop 26 = tail := by
  have hsplit : (0x76 :: 0xa9 :: 0x14 :: (h160 ++ (0x88 :: 0xac :: 0xc0 :: tail))) =
      ([0x76, 0xa9, 0x14] ++ h160 ++ [0x88, 0xac, 0xc0]) ++ tail := by
    simp
  rw [hsplit]
  have hlen : ([0x76, 0xa9, 0x14] ++ h160 ++ [0x88, 0xac, 0xc0]).length = 26 := by
    simp [hh]
  rw [← hlen, List.drop_left]

theorem find_rvn_opPush (L : Nat) (hle : L ≤ 0xff) (rest : List Nat) :
    firstSubstrPos RVN_ASSET_PREFIX (opPush L ++ (0x72 :: 0x76 :: 0x6e :: rest)) =
      some (opPush L).length := by
  by_cases hsm : L < 0x4c
  · rw [show opPush L = [L] from by unfold opPush; rw [if_pos hsm]]
    simpa using find_rvn_small L rest
  · rw [show opPush L = [0x4c, L] from by
      unfold opPush; rw [if_neg hsm, if_pos hle]]
    simpa using find_rvn_pushdata L rest

theorem drop_opPush (L n : Nat) (x : List Nat) :
    (opPush L ++ x).drop ((opPush L).length + n) = x.drop n := by
  rw [← List.drop_drop, List.drop_left]

theorem readBytes_exact (n : Nat) (x y : List Nat) (hx : x.length = n) :
    readBytes n (x ++ y) = some (x, y) := by
  subst hx
  unfold readBytes
  rw [if_pos (by simp), List.take_left, List.drop_left]

theorem assetLoop_skip (script : List Nat) (decoded rest : List DecodedOp)
    (op : Nat) (dat : Option (List Nat)) (idx i : Nat) (hop : op ≠ OP_ASSET) :
    assetLoop script decoded ((op, dat, idx) :: rest) i =
      assetLoop script decoded rest (i + 1) := by
  rw [assetLoop.eq_def]
  dsimp only
  rw [if_pos hop]

theorem drop_three_cons {α : Type} (a b c : α) (l : List α) :
    List.drop 3 (a :: b :: c :: l) = l := rfl

theorem get_six_of_eight {α : Type} (a b c d e f g h : α) :
    [a, b, c, d, e, f, g, h].get? 6 = some g := rfl

theorem length_of_eight {α : Type} (a b c d e f g h : α) :
    [a, b, c, d, e, f, g, h].length = 8 := rfl

theorem readBytes_one (a : Nat) (l : List Nat) :
    readBytes 1 (a :: l) = some ([a], l) := by
  unfold readBytes
  rw [if_pos (by simp)]
  rfl

theorem readByteAsInt_cons (a : Nat) (l : List Nat) :
    readByteAsInt (a :: l) = some (a, l) := rfl

theorem assetLoop_create_main (h160 amtB adata : List Nat) (asset : List Char)
    (dv rb hb pushOp endIdx : Nat)
    (hh : h160.length = 20)
    (hname : asset.all asciiChar = true)
    (hamt : amtB.length = 8)
    (h34 : hb = 1 → adata.length = 34)
    (hple : (0x72 :: 0x76 :: 0x6e :: 0x71 :: asset.length ::
      (asset.map Char.toNat ++ (amtB ++ (dv :: rb :: hb :: adata)))).length ≤ 0xff) :
    assetLoop
      (0x76 :: 0xa9 :: 0x14 :: (h160 ++ (0x88 :: 0xac :: 0xc0 ::
        (opPush (0x72 :: 0x76 :: 0x6e :: 0x71 :: asset.length ::
          (asset.map Char.toNat ++ (amtB ++ (dv :: rb :: hb :: adata)))).length ++
         ((0x72 :: 0x76 :: 0x6e :: 0x71 :: asset.length ::
          (asset.map Char.toNat ++ (amtB ++ (dv :: rb :: hb :: adata)))) ++ [0x75])))))
      [(0x76, none, 1), (0xa9, none, 2), (0x14, some h160, 23), (0x88, none, 24),
       (0xac, none, 25), (0xc0, none, 26),
       (pushOp, some (0x72 :: 0x76 :: 0x6e :: 0x71 :: asset.length ::
          (asset.map Char.toNat ++ (amtB ++ (dv :: rb :: hb :: adata)))), endIdx),
       (0x75, none, endIdx + 1)]
      [(0xc0, none, 26),
       (pushOp, some (0x72 :: 0x76 :: 0x6e :: 0x71 :: asset.length ::
          (asset.map Char.toNat ++ (amtB ++ (dv :: rb :: hb :: adata)))), endIdx),
       (0x75, none, endIdx + 1)] 5 =
    .ok (some (.metadata .CREATE true asset (fromBytesLE amtB) dv (decide (rb = 1))
      (if hb = 1 then some adata else none))) := by
  rw [assetLoop.eq_def]
  dsimp only
  rw [if_neg (by decide)]
  rw [if_neg (by decide)]
  rw [drop26_p2pkh _ _ hh]
  simp only [List.cons_append, List.append_assoc]
  rw [find_rvn_opPush _ hple]
  dsimp only
  rw [if_neg (by
    simp only [List.length_append, List.length_cons, RVN_ASSET_PREFIX, List.length_nil]
    omega)]
  rw [drop_opPush]
  rw [show RVN_ASSET_PREFIX.length = 3 from rfl]
  rw [drop_three_cons]
  rw [readBytes_one]
  dsimp only
  rw [if_neg (by decide)]
  rw [readByteAsInt_cons]
  dsimp only
  rw [readBytes_exact asset.length _ _ (by simp)]
  dsimp only
  rw [utf8Decode_ascii asset hname]
  dsimp only
  rw [if_neg (by decide)]
  rw [readBytes_exact 8 amtB _ hamt]
  dsimp only
  rw [if_neg (by decide)]
  rw [readByteAsInt_cons]
  dsimp only
  rw [readByteAsInt_cons]
  dsimp only
  rw [if_pos (by decide)]
  rw [readByteAsInt_cons]
  dsimp only
  rw [show (5 : Nat) + 1 = 6 from rfl]
  rw [length_of_eight, get_six_of_eight]
  dsimp only
  simp only [Option.getD_some, Option.isSome_some]
  simp only [List.cons_append, List.append_assoc]
  rw [show (decide True) = true from rfl]
  rw [show (decide (6 < 8)) = true from rfl]
  simp only [Bool.true_and, Bool.and_true, Bool.and_self]
  by_cases hhb : hb = 1
  · rw [if_pos hhb, if_pos hhb]
    rw [readBytes_exact 34 adata _ (h34 hhb)]
  · rw [if_neg hhb, if_neg hhb]

/-! ## Theorems for the claims -/

/-- Claim C1: for every valid create tuple — a name accepted by
`get_error_for_asset_name`, an amount in (0, 21_000_000_000 * COIN], divisions
in [0, 8] and associated data absent or exactly 34 bytes — decoding the script
produced by `generate_create_script` with `get_asset_info_from_script` yields a
CREATE metadata result whose name, amount, divisions, reissuable flag and
associated data equal the encoder inputs and whose well-formed flag is true. -/
theorem create_roundtrip (h160 : List Nat) (asset : List Char)
    (amount divisions : Int) (reissuable : Bool) (ad : Option (List Nat))
    (hh : h160.length = 20)
    (hname : getErrorForAssetName asset = none)
    (ha1 : 0 < amount) (ha2 : amount ≤ ((DEFAULT_ASSET_AMOUNT_MAX * COIN : Nat) : Int))
    (hd1 : 0 ≤ divisions) (hd2 : divisions ≤ 8)
    (hdata : ad = none ∨ ∃ d, ad = some d ∧ d.length = 34) :
    createRoundTrip h160 asset amount divisions reissuable ad =
      some (.ok (some (.metadata .CREATE true asset amount.toNat divisions.toNat
        reissuable ad))) := by
  obtain ⟨hall, h40⟩ := valid_name_ascii asset hname
  have hN : ((DEFAULT_ASSET_AMOUNT_MAX * COIN : Nat) : Int) = 2100000000000000000 := by
    norm_num [DEFAULT_ASSET_AMOUNT_MAX, COIN]
  have h256 : ((256 : Int) ^ 8) = 18446744073709551616 := by norm_num
  have hamtlt : amount < (256 : Int) ^ 8 := by omega
  have hI8 : intToBytesLEI amount 8 = intToBytesLE amount.toNat 8 :=
    intToBytesLEI_eq _ _ (le_of_lt ha1) hamtlt
  have h2561 : ((256 : Int) ^ 1) = 256 := by norm_num
  have hI1 : intToBytesLEI divisions 1 = [divisions.toNat] := by
    rw [intToBytesLEI_eq _ _ hd1 (by omega)]
    show divisions.toNat % 256 :: intToBytesLE (divisions.toNat / 256) 0 = _
    rw [Nat.mod_eq_of_lt (by omega)]
    rfl
  have hamt : (intToBytesLE amount.toNat 8).length = 8 := length_intToBytesLE _ _
  have hfrom : fromBytesLE (intToBytesLE amount.toNat 8) = amount.toNat := by
    rw [fromBytesLE_intToBytesLE]
    exact Nat.mod_eq_of_lt (by omega)
  unfold createRoundTrip
  rw [generate_create_script_ok h160 asset amount divisions reissuable ad hname ha1 ha2
    hd1 hd2 hdata]
  dsimp only [Except.toOption]
  simp only [Option.map_some']
  rw [createPayload_cons asset amount divisions reissuable ad hall h40, hI8, hI1]
  simp only [List.singleton_append]
  rcases hdata with rfl | ⟨d, rfl, hd34⟩
  · have hpt : pyTruthyBytes (none : Option (List Nat)) = false := rfl
    simp only [hpt, Bool.false_eq_true, if_false]
    have hPle : (0x72 :: 0x76 :: 0x6e :: 0x71 :: asset.length ::
        (asset.map Char.toNat ++ (intToBytesLE amount.toNat 8 ++
         (divisions.toNat :: (if reissuable then 1 else 0) :: 0 :: [])))).length ≤ 0xff := by
      simp only [List.length_cons, List.length_append, List.length_map, hamt,
        List.length_nil]
      omega
    obtain ⟨pushOp, endIdx, hshape⟩ := scriptGetOp_create_shape h160 _ hh hPle
    unfold get_asset_info_from_script
    rw [hshape]
    dsimp only
    rw [assetLoop_skip _ _ _ _ _ _ _ (by decide)]
    rw [assetLoop_skip _ _ _ _ _ _ _ (by decide)]
    rw [assetLoop_skip _ _ _ _ _ _ _ (by decide)]
    rw [assetLoop_skip _ _ _ _ _ _ _ (by decide)]
    rw [assetLoop_skip _ _ _ _ _ _ _ (by decide)]
    rw [show (0 : Nat) + 1 + 1 + 1 + 1 + 1 = 5 from rfl]
    rw [assetLoop_create_main h160 (intToBytesLE amount.toNat 8) [] asset
      divisions.toNat (if reissuable then 1 else 0) 0 pushOp endIdx hh hall hamt
      (by omega) hPle]
    rw [hfrom]
    rw [show (decide ((if reissuable then (1 : Nat) else 0) = 1)) = reissuable from by
      cases reissuable <;> rfl]
    rw [if_neg (by omega)]
  · have hne : d ≠ [] := by
      intro h
      rw [h] at hd34
      simp at hd34
    rcases d with _ | ⟨x, xs⟩
    · exact absurd rfl hne
    have hpt : pyTruthyBytes (some (x :: xs)) = true := rfl
    simp only [hpt, if_pos, Option.getD_some]
    have hPle : (0x72 :: 0x76 :: 0x6e :: 0x71 :: asset.length ::
        (asset.map Char.toNat ++ (intToBytesLE amount.toNat 8 ++
         (divisions.toNat :: (if reissuable then 1 else 0) :: 1 :: (x :: xs))))).length ≤ 0xff := by
      simp only [List.length_cons, List.length_append, List.length_map, hamt,
        List.length_nil]
      simp only [List.length_cons] at hd34
      omega
    obtain ⟨pushOp, endIdx, hshape⟩ := scriptGetOp_create_shape h160 _ hh hPle
    unfold get_asset_info_from_script
    rw [hshape]
    dsimp only
    rw [assetLoop_skip _ _ _ _ _ _ _ (by decide)]
    rw [assetLoop_skip _ _ _ _ _ _ _ (by decide)]
    rw [assetLoop_skip _ _ _ _ _ _ _ (by decide)]
    rw [assetLoop_skip _ _ _ _ _ _ _ (by decide)]
    rw [assetLoop_skip _ _ _ _ _ _ _ (by decide)]
    rw [show (0 : Nat) + 1 + 1 + 1 + 1 + 1 = 5 from rfl]
    rw [assetLoop_create_main h160 (intToBytesLE amount.toNat 8) (x :: xs) asset
      divisions.toNat (if reissuable then 1 else 0) 1 pushOp endIdx hh hall hamt
      (fun _ => hd34) hPle]
    rw [hfrom]
    rw [show (decide ((if reissuable then (1 : Nat) else 0) = 1)) = reissuable from by
      cases reissuable <;> rfl]
    rw [if_pos rfl]

theorem create_roundtrip_witness :
    (List.replicate 20 0).length = 20 ∧
    getErrorForAssetName (cs "FOO") = none ∧
    createRoundTrip (List.replicate 20 0) (cs "FOO") 10000000000 0 true none =
      some (.ok (some (.metadata .CREATE true (cs "FOO") 10000000000 0 true none))) :=
  ⟨rfl, rfl,
   create_roundtrip (List.replicate 20 0) (cs "FOO") 10000000000 0 true none
     rfl rfl (by decide) (by decide) (by decide) (by decide) (Or.inl rfl)⟩


/-- Claim C2 (code evaluation): on a script that disassembles fine and whose
asset payload carries the marker, the `rvn` prefix, the create discriminator
and a garbage (non-UTF-8) name byte `0xff`, `get_asset_info_from_script`
raises `UnicodeDecodeError` from `bytes.decode()` instead of returning the
no-info sentinel, contradicting the claim that decoding never raises on
post-disassembly garbage. -/
theorem decode_raises_on_nonutf8_name :
    (script_GetOp [0xac, 0xc0, 0x06, 0x72, 0x76, 0x6e, 0x71, 0x01, 0xff, 0x75]).isSome = true ∧
    get_asset_info_from_script [0xac, 0xc0, 0x06, 0x72, 0x76, 0x6e, 0x71, 0x01, 0xff, 0x75] =
      Except.error PyErr.unicodeDecodeError :=
  ⟨rfl, rfl⟩

/-- Claim C3 (counterexample): the expression parsed from `A&B` references
the variable `B`, the bindings `{A: false}` lack `B`, and yet evaluation
returns `false` without a missing-key error — Python `and` short-circuits,
so an absent variable in the unevaluated branch is not detected. -/
theorem evaluate_shortcircuit_skips_absent_var :
    ((BooleanExprAST.parse_string (cs "A&B")).getD (.NONE [])).mentionsVar (cs "B") = true ∧
    lookupVar [(cs "A", false)] (cs "B") = none ∧
    ((BooleanExprAST.parse_string (cs "A&B")).getD (.NONE [])).evaluate [(cs "A", false)] =
      Except.ok false :=
  ⟨rfl, rfl, rfl⟩

/-- Claim C3 (amended): whenever evaluation actually looks a variable up —
in particular on every `VAR` expression — an absent binding is a hard
missing-key failure, never a silent `false`. -/
theorem evaluate_var_missing_key_raises (x : List Char) (b : List (List Char × Bool))
    (h : lookupVar b x = none) :
    (BooleanExprAST.VAR x).evaluate b = .error (cs "Key " ++ x ++ cs " does not exist") := by
  simp [BooleanExprAST.evaluate, h]

/-- Witness for the amended claim C3 at `x = "A"`, empty bindings. -/
theorem evaluate_var_missing_key_raises_witness :
    lookupVar [] (cs "A") = none ∧
    (BooleanExprAST.VAR (cs "A")).evaluate [] =
      .error (cs "Key " ++ cs "A" ++ cs " does not exist") :=
  ⟨rfl, evaluate_var_missing_key_raises (cs "A") [] rfl⟩

/-- Claim C4 (counterexample): `generate_transfer_script_from_base` performs
no validation at all — for the name `rvn` (rejected by the validator) and
the out-of-range amount `-5` it still returns script bytes instead of
failing. -/
theorem transfer_encoder_no_validation :
    (getErrorForAssetName (cs "rvn")).isSome = true ∧
    generate_transfer_script_from_base (cs "rvn") (-5) [] =
      [0xc0, 0x10, 0x72, 0x76, 0x6e, 0x74, 0x03, 0x72, 0x76, 0x6e,
       0xfb, 0xff, 0xff, 0xff, 0xff, 0xff, 0xff, 0xff, 0x75] := by
  constructor
  · rfl
  · rfl

/-- Claim C4 (amended): the create encoder does validate its constraints —
a rejected name, a non-positive or over-maximum amount, out-of-range
divisions, or truthy associated data that is not exactly 34 bytes each make
`generate_create_script` fail with a typed error before any bytes are
produced (the transfer encoder, by contrast, validates nothing). -/
theorem create_encoder_validates_before_bytes
    (h160 : List Nat) (asset : List Char) (amount : Int) (divisions : Int)
    (reissuable : Bool) (ad : Option (List Nat))
    (h : (getErrorForAssetName asset).isSome = true ∨ amount ≤ 0 ∨
         ((DEFAULT_ASSET_AMOUNT_MAX * COIN : Nat) : Int) < amount ∨
         divisions < 0 ∨ 8 < divisions ∨
         (pyTruthyBytes ad = true ∧ (ad.getD []).length ≠ 34)) :
    exceptIsError (generate_create_script h160 asset amount divisions reissuable ad) = true := by
  unfold generate_create_script
  split
  · rfl
  · rename_i h1
    split
    · rfl
    · rename_i h2
      split
      · rfl
      · rename_i h3
        split
        · rfl
        · rename_i h4
          exfalso
          simp only [Bool.or_eq_true, Bool.not_eq_true', decide_eq_true_eq,
            decide_eq_false_iff_not, not_lt, Bool.and_eq_true, ne_eq,
            Bool.not_eq_true, not_or, not_and, Decidable.not_not] at h1 h2 h3 h4
          rcases h with h | h | h | h | h | h
          · simp_all
          · omega
          · omega
          · omega
          · omega
          · exact h.2 (h4 h.1)


/-- Witness for the amended claim C4: a zero amount is rejected before any
bytes are produced. -/
theorem create_encoder_validates_before_bytes_witness :
    exceptIsError (generate_create_script [] (cs "FOO") 0 0 true none) = true :=
  create_encoder_validates_before_bytes [] (cs "FOO") 0 0 true none (Or.inr (Or.inl (by decide)))

/-- Claim C5 (code evaluation): the bare ticker `RVN` and the
qualifier-marked `#RVN` are rejected, but the restricted-marked `$RVN` is
accepted: the `_BAD_NAMES` alternation has no `$`-prefixed entries and its
`^`-anchored alternatives can never match a string that starts with `$`, so
the reserved-name block inside `_isRestrictedNameValid` is dead code. -/
theorem reserved_restricted_name_accepted :
    (getErrorForAssetName (cs "RVN")).isSome = true ∧
    (getErrorForAssetName (cs "#RVN")).isSome = true ∧
    getErrorForAssetName (cs "$RVN") = none :=
  ⟨rfl, rfl, rfl⟩

/-- Claim C6: `"A&B|!C"` parses to `OR(AND(A,B), NOT(C))` — NOT binds
tighter than AND, which binds tighter than OR — and that AST evaluates to
`true` under `{A: true, B: false, C: false}` (via the NOT branch). -/
theorem verifier_precedence_parse_eval :
    BooleanExprAST.parse_string (cs "A&B|!C") =
      some (.OR (.AND (.VAR (cs "A")) (.VAR (cs "B"))) (.NOT (.VAR (cs "C")))) ∧
    (BooleanExprAST.OR (.AND (.VAR (cs "A")) (.VAR (cs "B")))
        (.NOT (.VAR (cs "C")))).evaluate
      [(cs "A", true), (cs "B", false), (cs "C", false)] = Except.ok true :=
  ⟨by decide, rfl⟩

/-- Claim C7: for every vout-information value, `is_transferable` holds
exactly for the Create/Owner/Transfer/Reissue types, and `is_deterministic`
holds for Transfer/Owner/None-type results only when well-formed — for
Transfer additionally only without memo and timestamp — while the
Freeze/Verifier/Null tag variants are always deterministic. -/
theorem vout_flags_characterization (v : AssetVoutInformation) :
    (v.is_transferable = true ↔
      (v.get_type = .CREATE ∨ v.get_type = .OWNER ∨ v.get_type = .TRANSFER ∨
       v.get_type = .REISSUE)) ∧
    (v.is_deterministic = true ↔
      (match v with
       | .transfer wf _ _ memo ts => memo = none ∧ ts = none ∧ wf = true
       | .owner wf _ => wf = true
       | .noInfo => True
       | .metadata t wf _ _ _ _ _ =>
         (t = .TRANSFER ∨ t = .OWNER ∨ t = .NONE) ∧ wf = true
       | .nullTag _ _ _ => True
       | .verifierTag _ => True
       | .freezeTag _ _ => True)) := by
  constructor
  · cases v <;>
      simp [AssetVoutInformation.is_transferable, AssetVoutInformation.get_type, or_assoc]
  · cases v <;>
      simp [AssetVoutInformation.is_deterministic, AssetVoutInformation.baseIsDeterministic,
        AssetVoutInformation.get_type, AssetVoutInformation.well_formed_script,
        Option.isNone_iff_eq_none, and_assoc, or_assoc]

/-- Claim C8 (counterexample): a Unique name of overall length 40 whose left
side `ABC` is a valid root and whose 36-character tag is within the extended
charset is nonetheless rejected: `get_error_for_asset_typed` caps every
non-root/sub taxonomy at `MAX_NAME_LENGTH = 32`, so there is a stricter cap
than the top-level 40. -/
theorem unique_name_40_rejected :
    (cs "ABC#aaaaaaaaaaaaaaaaaaaaaaaaaaaaaaaaaaaa").length = 40 ∧
    matchUniqueIndicator (cs "ABC#aaaaaaaaaaaaaaaaaaaaaaaaaaaaaaaaaaaa") = true ∧
    isNameValidBeforeTag (cs "ABC") = true ∧
    isUniqueTagValid (cs "aaaaaaaaaaaaaaaaaaaaaaaaaaaaaaaaaaaa") = true ∧
    (getErrorForAssetName (cs "ABC#aaaaaaaaaaaaaaaaaaaaaaaaaaaaaaaaaaaa")).isSome = true := by
  refine ⟨by decide, by decide, by decide, by decide, by decide⟩

/-- Claim C9 (counterexample): at the record `(sats = 1, divisions = 0,
reissuable = True, no associated data)` the status digest differs from the
digest of the decimal-form preimage `1010` the claim describes — the code
hashes `str(True)`/`str(False)` (`10TrueFalse`), not decimal `1`/`0`
boolean forms. -/
theorem status_digest_not_decimal_bools :
    AssetMetadata.status ⟨1, 0, true, none⟩ ≠ statusClaimSpec ⟨1, 0, true, none⟩ := by
  decide

/-- Claim C9 (amended): the status digest is the hex SHA-256 of the ASCII
bytes of `str(sats) ++ str(divisions) ++ str(reissuable) ++
str(has-associated-data)` — the booleans in Python `True`/`False` form —
followed by the base-58 text of the associated data when present; and equal
records always yield equal digests.  (`some []` is excluded: the attrs
converter normalizes falsy data to `None`.) -/
theorem status_digest_amended (m : AssetMetadata) (h : m.associated_data ≠ some []) :
    m.status = statusAmendedSpec m ∧ ∀ m2 : AssetMetadata, m = m2 → m.status = m2.status := by
  refine ⟨?_, fun m2 e => by rw [e]⟩
  match hm : m.associated_data with
  | none =>
    simp [AssetMetadata.status, statusAmendedSpec, AssetMetadata.associated_data_as_ipfs, hm]
  | some [] => exact absurd hm h
  | some (d :: ds) =>
    simp [AssetMetadata.status, statusAmendedSpec, AssetMetadata.associated_data_as_ipfs, hm]

/-- Witness for the amended claim C9 at a record with 34 bytes of
associated data. -/
theorem status_digest_amended_witness :
    (⟨1, 0, true, some (List.replicate 34 7)⟩ : AssetMetadata).associated_data ≠ some [] ∧
    (⟨1, 0, true, some (List.replicate 34 7)⟩ : AssetMetadata).status =
      statusAmendedSpec ⟨1, 0, true, some (List.replicate 34 7)⟩ :=
  ⟨by decide, (status_digest_amended ⟨1, 0, true, some (List.replicate 34 7)⟩ (by decide)).1⟩

/-- Claim C10: the no-asset sentinel is well-formed, deterministic, not
transferable and not a tag. -/
theorem no_asset_sentinel_invariants :
    AssetVoutInformation.noInfo.well_formed_script = true ∧
    AssetVoutInformation.noInfo.is_deterministic = true ∧
    AssetVoutInformation.noInfo.is_transferable = false ∧
    AssetVoutInformation.noInfo.is_tag = false :=
  ⟨rfl, rfl, rfl, rfl⟩

end ElectrumAsset
